import Mathlib

/-!
Detective Quest: clue index (BST) and suspect directory (chained hash table).

Shallow embedding of `algoritmos_avancados.c`.

* A C string is the list of its bytes before the terminating NUL, each byte a
  natural number in `1..255` (`ehTexto`).
* A `PistaNode*` is a value of the inductive type `PistaNode` (`nulo` is `NULL`).
  The in-place pointer walk of `inserirPistaIterativa` is the structural recursion
  `inserirPistaLaco`, which rebuilds the path it walks.
* The `HashEntry**` table is a list of buckets, each bucket the list of the entries
  of its chain from the head on.
* `int` counters are natural numbers: they count nodes of a tree that is in memory,
  far below `2^31`.
* The standard input of `explorarSalas` and `main` is the list of the strings that
  the successive `fgets` calls return; printed text is left out, except the message
  of `verificarSuspeitoFinal`, which is its result.
-/

namespace DetectiveQuest

set_option maxRecDepth 100000

/-! ## Strings -/

/-- Bytes of a C string before its terminating NUL. -/
abbrev Texto := List Nat

/-- Well-formed C string contents: every byte is in `1..255`. -/
def ehTexto (s : Texto) : Prop := ∀ b ∈ s, 0 < b ∧ b < 256

instance (s : Texto) : Decidable (ehTexto s) := by
  unfold ehTexto; infer_instance

/-- Sign of libc `strcmp`: bytes are compared as `unsigned char`, the first
difference decides, and the terminating NUL is below every byte of a string. -/
def strcmp : Texto → Texto → Int
  | [], [] => 0
  | [], _ :: _ => -1
  | _ :: _, [] => 1
  | a :: s, b :: t => if a < b then -1 else if b < a then 1 else strcmp s t

/-! ## Clue index -/

/-- Node of the clue tree (`struct PistaNode`); `nulo` is the `NULL` pointer. -/
inductive PistaNode where
  | nulo : PistaNode
  | no (pista : Texto) (esq dir : PistaNode) : PistaNode
  deriving DecidableEq, Repr

/-- The `while (atual != NULL)` walk of `inserirPistaIterativa`, started at a
node `atual`: an equal text returns with `inseriu = 0`, a smaller text goes to
`esq` (or hangs a new leaf there when `esq` is `NULL`), a greater text likewise
with `dir`. The result is the subtree below `atual` after the walk and `inseriu`. -/
def inserirPistaLaco (pista : Texto) : PistaNode → PistaNode × Bool
  | .nulo => (.nulo, false)
  | .no p esq dir =>
    if strcmp pista p = 0 then (.no p esq dir, false)
    else if strcmp pista p < 0 then
      match esq with
      | .nulo => (.no p (.no pista .nulo .nulo) dir, true)
      | _ => (.no p (inserirPistaLaco pista esq).1 dir, (inserirPistaLaco pista esq).2)
    else
      match dir with
      | .nulo => (.no p esq (.no pista .nulo .nulo), true)
      | _ => (.no p esq (inserirPistaLaco pista dir).1, (inserirPistaLaco pista dir).2)

/-- Function `inserirPistaIterativa`: returns the root and the flag `inseriu`. -/
def inserirPistaIterativa (raiz : PistaNode) (pista : Texto) : PistaNode × Bool :=
  match raiz with
  | .nulo => (.no pista .nulo .nulo, true)
  | _ => inserirPistaLaco pista raiz

/-- Function `mostrarPistasInOrder`: the texts in the order they are printed. -/
def mostrarPistasInOrder : PistaNode → List Texto
  | .nulo => []
  | .no p esq dir => mostrarPistasInOrder esq ++ p :: mostrarPistasInOrder dir

/-- Function `contarPistas`. -/
def contarPistas : PistaNode → Nat
  | .nulo => 0
  | .no _ esq dir => 1 + contarPistas esq + contarPistas dir

/-- Tree obtained by inserting the texts of `xs` one after another, from the left. -/
def inserirTodas (raiz : PistaNode) (xs : List Texto) : PistaNode :=
  xs.foldl (fun t x => (inserirPistaIterativa t x).1) raiz

/-- BST ordering: at every node the texts of the left subtree are below the node's
text and the texts of the right subtree are above it. -/
def ehBST : PistaNode → Prop
  | .nulo => True
  | .no p esq dir =>
    (∀ x ∈ mostrarPistasInOrder esq, strcmp x p < 0) ∧
    (∀ x ∈ mostrarPistasInOrder dir, strcmp p x < 0) ∧ ehBST esq ∧ ehBST dir

/-- Spec side of "inserted at its sorted position": `x` goes right before the first
text of the list that is above it. -/
def inserirOrdenado (x : Texto) : List Texto → List Texto
  | [] => [x]
  | y :: ys => if strcmp x y < 0 then x :: y :: ys else y :: inserirOrdenado x ys

/-- Spec side of "added as a new leaf": the second tree is the first with one `NULL`
link replaced by a childless node holding `x`, everything else in place. -/
inductive NovaFolha (x : Texto) : PistaNode → PistaNode → Prop where
  | aqui : NovaFolha x .nulo (.no x .nulo .nulo)
  | esquerda (p : Texto) (e e2 d : PistaNode) :
      NovaFolha x e e2 → NovaFolha x (.no p e d) (.no p e2 d)
  | direita (p : Texto) (e d d2 : PistaNode) :
      NovaFolha x d d2 → NovaFolha x (.no p e d) (.no p e d2)

/-! ## Suspect directory -/

/-- The conversion in `int c = *s` of a byte read through `const char *`. Whether
plain `char` is signed is fixed by the platform ABI: it is on x86-64, where bytes
from 128 on read as negative numbers, and it is not on AArch64 Linux. -/
def charParaInt (charComSinal : Bool) (b : Nat) : Int :=
  if charComSinal = true ∧ 128 ≤ b then (b : Int) - 256 else (b : Int)

/-- Conversion of an `int` to the 64-bit `unsigned long`. -/
def paraULong (c : Int) : Nat := (c % 2 ^ 64).toNat

/-- The `while ((c = *s++))` loop of `hashString` on the accumulator `h`:
`h = ((h << 5) + h) + c` in 64-bit unsigned arithmetic. -/
def hashLaco (charComSinal : Bool) : Texto → Nat → Nat
  | [], h => h
  | b :: s, h =>
    hashLaco charComSinal s
      ((((h <<< 5) % 2 ^ 64 + h) % 2 ^ 64 + paraULong (charParaInt charComSinal b)) % 2 ^ 64)

/-- Function `hashString`: `(unsigned int)(h % m)` for a table size `m > 0`. -/
def hashString (charComSinal : Bool) (s : Texto) (m : Nat) : Nat :=
  (hashLaco charComSinal s 5381 % m) % 2 ^ 32

/-- Spec side of the hash recurrence: `h = h*33 + byte_value(c)` modulo `2^64`. -/
def hashEspec : Texto → Nat → Nat
  | [], h => h
  | b :: s, h => hashEspec s ((h * 33 + b) % 2 ^ 64)

/-- Entry of a chain (`struct HashEntry`); `prox` is the tail of the list it is in. -/
structure HashEntry where
  chave : Texto
  valor : Texto
  deriving DecidableEq, Repr

/-- The table: bucket `i` is the chain `tab[i]`, head first. -/
abbrev Tabela := List (List HashEntry)

/-- Function `criarTabelaHash`: `m` empty buckets. -/
def criarTabelaHash (m : Nat) : Tabela := List.replicate m []

/-- The `while (cur)` walk of `inserirNaHash`: the chain with the value of the
first entry whose key is `chave` replaced, or `none` when the walk reaches the end. -/
def atualizarCadeia (chave valor : Texto) : List HashEntry → Option (List HashEntry)
  | [] => none
  | e :: resto =>
    if strcmp e.chave chave = 0 then some (⟨e.chave, valor⟩ :: resto)
    else (atualizarCadeia chave valor resto).map (fun r => e :: r)

/-- Function `inserirNaHash`, for a table of `m` buckets. -/
def inserirNaHash (charComSinal : Bool) (tab : Tabela) (m : Nat) (chave valor : Texto) :
    Tabela :=
  let idx := hashString charComSinal chave m
  match atualizarCadeia chave valor (tab.getD idx []) with
  | some cadeia => tab.set idx cadeia
  | none => tab.set idx (⟨chave, valor⟩ :: tab.getD idx [])

/-- The `while (cur)` walk of `encontrarSuspeito`. -/
def buscarCadeia (chave : Texto) : List HashEntry → Option Texto
  | [] => none
  | e :: resto => if strcmp e.chave chave = 0 then some e.valor else buscarCadeia chave resto

/-- Function `encontrarSuspeito`: `none` is the `NULL` result. -/
def encontrarSuspeito (charComSinal : Bool) (tab : Tabela) (m : Nat) (chave : Texto) :
    Option Texto :=
  buscarCadeia chave (tab.getD (hashString charComSinal chave m) [])

/-- Table reached from `tab` by the calls `inserirNaHash(k, v)` for the pairs of
`ops`, in order. -/
def inserirTodasNaHash (charComSinal : Bool) (tab : Tabela) (m : Nat)
    (ops : List (Texto × Texto)) : Tabela :=
  ops.foldl (fun t kv => inserirNaHash charComSinal t m kv.1 kv.2) tab

/-- Number of entries of the whole table whose key is `k`. -/
def entradasComChave (tab : Tabela) (k : Texto) : Nat :=
  (tab.flatten.filter (fun e => decide (e.chave = k))).length

/-- Chain of the bucket of `k` after `inserirNaHash(k, v)`. -/
def cadeiaNova (k v : Texto) (c : List HashEntry) : List HashEntry :=
  match atualizarCadeia k v c with
  | some c2 => c2
  | none => ⟨k, v⟩ :: c

/-- Invariant of one chain of bucket `i`: no two entries with the same key, and every
entry is in the bucket that `hashString` selects for its key. -/
def cadeiaOk (charComSinal : Bool) (m i : Nat) (c : List HashEntry) : Prop :=
  (c.map HashEntry.chave).Nodup ∧ ∀ e ∈ c, hashString charComSinal e.chave m = i

/-- Invariant of a table of `m` buckets. -/
def tabelaOk (charComSinal : Bool) (m : Nat) (tab : Tabela) : Prop :=
  tab.length = m ∧ ∀ i, cadeiaOk charComSinal m i (tab.getD i [])

/-! ## Verdict -/

/-- Libc `tolower` on an `unsigned char` value in the "C" locale (the program never
calls `setlocale`): only `A..Z` change. -/
def tolower (c : Nat) : Nat := if 65 ≤ c ∧ c ≤ 90 then c + 32 else c

/-- Function `minusculo`. -/
def minusculo (s : Texto) : Texto := s.map tolower

/-- The copy `strncpy(tmp, s, sizeof(tmp)-1); tmp[sizeof(tmp)-1] = 0` into a
`char tmp[128]`: the first 127 bytes of `s`. -/
def copiarParaTmp (s : Texto) : Texto := s.take 127

/-- Function `contarPistasPorSuspeito`; the last argument is `*out_count` on entry
and the result is `*out_count` on return. -/
def contarPistasPorSuspeito (charComSinal : Bool) (raiz : PistaNode) (tab : Tabela) (m : Nat)
    (acusado : Texto) (out_count : Nat) : Nat :=
  match raiz with
  | .nulo => out_count
  | .no pista esq dir =>
    let c1 := contarPistasPorSuspeito charComSinal esq tab m acusado out_count
    let c2 :=
      match encontrarSuspeito charComSinal tab m pista with
      | some sus =>
        if strcmp (minusculo (copiarParaTmp sus)) (minusculo (copiarParaTmp acusado)) = 0
        then c1 + 1 else c1
      | none => c1
    contarPistasPorSuspeito charComSinal dir tab m acusado c2

/-- Spec side of one match: the lookup of the clue `p` yields a name that, folded
to lower case, is the accused name folded to lower case. -/
def apontaEspec (charComSinal : Bool) (tab : Tabela) (m : Nat) (acusado p : Texto) : Bool :=
  match encontrarSuspeito charComSinal tab m p with
  | some sus => decide (minusculo sus = minusculo acusado)
  | none => false

/-- Spec side of the match count: the number of texts of the tree that match in
the sense of `apontaEspec`. -/
def contagemEspec (charComSinal : Bool) (raiz : PistaNode) (tab : Tabela) (m : Nat)
    (acusado : Texto) : Nat :=
  ((mostrarPistasInOrder raiz).filter (apontaEspec charComSinal tab m acusado)).length

/-- One match on the two 127-byte copies: the lookup of the clue `p` yields a name
whose first 127 bytes, folded to lower case, are the first 127 bytes of the accused
name folded to lower case. -/
def apontaTruncado (charComSinal : Bool) (tab : Tabela) (m : Nat) (acusado p : Texto) : Bool :=
  match encontrarSuspeito charComSinal tab m p with
  | some sus => decide (minusculo (copiarParaTmp sus) = minusculo (copiarParaTmp acusado))
  | none => false

/-- The number of texts of the tree that match in the sense of `apontaTruncado`. -/
def contagemTruncada (charComSinal : Bool) (raiz : PistaNode) (tab : Tabela) (m : Nat)
    (acusado : Texto) : Nat :=
  ((mostrarPistasInOrder raiz).filter (apontaTruncado charComSinal tab m acusado)).length

/-- A suspect name of 128 bytes, all `a`. -/
def suspeitoLongo : Texto := List.replicate 128 97

/-- An accused name of 127 bytes, all `a`: a proper initial segment of `suspeitoLongo`. -/
def acusadoLongo : Texto := List.replicate 127 97

/-- The clue text "x". -/
def pistaX : Texto := [120]

/-- Bytes of the seeded key "batom no lavatório" as the source file (UTF-8) has them. -/
def batomNoLavatorio : Texto :=
  [98, 97, 116, 111, 109, 32, 110, 111, 32, 108, 97, 118, 97, 116, 195, 179, 114, 105, 111]

/-! ## Verdict message -/

/-- What `verificarSuspeitoFinal` prints: "Nenhuma pista coletada. Impossivel sustentar
acusacao.", or the count followed by "Acusacao SUSTENTADA", or the count followed by
"Acusacao NAO sustentada". -/
inductive MensagemFinal where
  | nenhumaPista : MensagemFinal
  | sustentada (count : Nat) : MensagemFinal
  | naoSustentada (count : Nat) : MensagemFinal
  deriving DecidableEq, Repr

/-- Function `verificarSuspeitoFinal`. -/
def verificarSuspeitoFinal (charComSinal : Bool) (raizPistas : PistaNode) (tab : Tabela)
    (m : Nat) (acusado : Texto) : MensagemFinal :=
  match raizPistas with
  | .nulo => .nenhumaPista
  | _ =>
    let count := contarPistasPorSuspeito charComSinal raizPistas tab m acusado 0
    if count ≥ 2 then .sustentada count else .naoSustentada count

/-- Spec side: the two verdicts of `judge`. -/
inductive Veredito where
  | sustained : Veredito
  | notSustained : Veredito
  deriving DecidableEq, Repr

/-- Spec side: the verdict a printed message stands for. Only "Acusacao SUSTENTADA"
sustains the accusation. -/
def veredito : MensagemFinal → Veredito
  | .sustentada _ => .sustained
  | .naoSustentada _ => .notSustained
  | .nenhumaPista => .notSustained

/-! ## Strings of the program -/

/-- Bytes of the room name "Entrada". -/
def salaEntrada : Texto := [69, 110, 116, 114, 97, 100, 97]

/-- Bytes of the room name "Sala de Estar". -/
def salaDeEstar : Texto := [83, 97, 108, 97, 32, 100, 101, 32, 69, 115, 116, 97, 114]

/-- Bytes of the room name "Biblioteca". -/
def salaBiblioteca : Texto := [66, 105, 98, 108, 105, 111, 116, 101, 99, 97]

/-- Bytes of the room name "Cozinha". -/
def salaCozinha : Texto := [67, 111, 122, 105, 110, 104, 97]

/-- Bytes of the room name "Quarto Principal". -/
def salaQuartoPrincipal : Texto :=
  [81, 117, 97, 114, 116, 111, 32, 80, 114, 105, 110, 99, 105, 112, 97, 108]

/-- Bytes of the room name "Banheiro". -/
def salaBanheiro : Texto := [66, 97, 110, 104, 101, 105, 114, 111]

/-- Bytes of the room name "Escritorio". -/
def salaEscritorio : Texto := [69, 115, 99, 114, 105, 116, 111, 114, 105, 111]

/-- Bytes of the room name "Jardim". -/
def salaJardim : Texto := [74, 97, 114, 100, 105, 109]

/-- Bytes of the clue "pegadas molhadas". -/
def pegadasMolhadas : Texto :=
  [112, 101, 103, 97, 100, 97, 115, 32, 109, 111, 108, 104, 97, 100, 97, 115]

/-- Bytes of the clue "charuto queimado". -/
def charutoQueimado : Texto :=
  [99, 104, 97, 114, 117, 116, 111, 32, 113, 117, 101, 105, 109, 97, 100, 111]

/-- Bytes of the clue "marcador de livro rasgado". -/
def marcadorDeLivroRasgado : Texto :=
  [109, 97, 114, 99, 97, 100, 111, 114, 32, 100, 101, 32, 108, 105, 118, 114, 111, 32, 114, 97,
    115, 103, 97, 100, 111]

/-- Bytes of the clue "pegador de panelas sujo". -/
def pegadorDePanelasSujo : Texto :=
  [112, 101, 103, 97, 100, 111, 114, 32, 100, 101, 32, 112, 97, 110, 101, 108, 97, 115, 32, 115,
    117, 106, 111]

/-- Bytes of the clue "fio de tecido vermelho". -/
def fioDeTecidoVermelho : Texto :=
  [102, 105, 111, 32, 100, 101, 32, 116, 101, 99, 105, 100, 111, 32, 118, 101, 114, 109, 101,
    108, 104, 111]

/-- Bytes of the clue "recibo rasgado". -/
def reciboRasgado : Texto := [114, 101, 99, 105, 98, 111, 32, 114, 97, 115, 103, 97, 100, 111]

/-- Bytes of the clue "sementes pisoteadas". -/
def sementesPisoteadas : Texto :=
  [115, 101, 109, 101, 110, 116, 101, 115, 32, 112, 105, 115, 111, 116, 101, 97, 100, 97, 115]

/-- Bytes of the suspect name "Jardineiro". -/
def jardineiro : Texto := [74, 97, 114, 100, 105, 110, 101, 105, 114, 111]

/-- Bytes of the suspect name "Marido". -/
def marido : Texto := [77, 97, 114, 105, 100, 111]

/-- Bytes of the suspect name "Bibliotecaria". -/
def bibliotecaria : Texto := [66, 105, 98, 108, 105, 111, 116, 101, 99, 97, 114, 105, 97]

/-- Bytes of the suspect name "Cozinheiro". -/
def cozinheiro : Texto := [67, 111, 122, 105, 110, 104, 101, 105, 114, 111]

/-- Bytes of the suspect name "Mulher da festa". -/
def mulherDaFesta : Texto := [77, 117, 108, 104, 101, 114, 32, 100, 97, 32, 102, 101, 115, 116, 97]

/-- Bytes of the suspect name "Contador". -/
def contador : Texto := [67, 111, 110, 116, 97, 100, 111, 114]

/-- Bytes of the suspect name written for a clue without entry "Desconhecido". -/
def desconhecido : Texto := [68, 101, 115, 99, 111, 110, 104, 101, 99, 105, 100, 111]

/-- Spec side: bytes of the name "Unknown" that the spec gives for a clue without entry. -/
def unknownEspec : Texto := [85, 110, 107, 110, 111, 119, 110]

/-- Bytes of "Porao", a room name that `pistaDaSala` does not know. -/
def salaPorao : Texto := [80, 111, 114, 97, 111]

/-- The input line "e" with its newline. -/
def linhaE : Texto := [101, 10]

/-- The input line "d" with its newline. -/
def linhaD : Texto := [100, 10]

/-- The input line "s" with its newline. -/
def linhaS : Texto := [115, 10]

/-- The input line "Jardineiro" with its newline. -/
def linhaJardineiro : Texto := [74, 97, 114, 100, 105, 110, 101, 105, 114, 111, 10]

/-! ## Rooms and exploration -/

/-- Node of the room tree (`struct Sala`); `nulo` is the `NULL` pointer. -/
inductive Sala where
  | nulo : Sala
  | no (nome : Texto) (esq dir : Sala) : Sala
  deriving DecidableEq, Repr

/-- Function `criarSala`. -/
def criarSala (nome : Texto) : Sala := .no nome .nulo .nulo

/-- Function `pistaDaSala`; `none` is the `NULL` result. -/
def pistaDaSala (nomeSala : Texto) : Option Texto :=
  if strcmp nomeSala salaEntrada = 0 then some pegadasMolhadas
  else if strcmp nomeSala salaDeEstar = 0 then some charutoQueimado
  else if strcmp nomeSala salaBiblioteca = 0 then some marcadorDeLivroRasgado
  else if strcmp nomeSala salaCozinha = 0 then some pegadorDePanelasSujo
  else if strcmp nomeSala salaQuartoPrincipal = 0 then some fioDeTecidoVermelho
  else if strcmp nomeSala salaBanheiro = 0 then some batomNoLavatorio
  else if strcmp nomeSala salaEscritorio = 0 then some reciboRasgado
  else if strcmp nomeSala salaJardim = 0 then some sementesPisoteadas
  else none

/-- Function `trim_newline` on a string. -/
def trim_newline (s : Texto) : Texto :=
  if s.getLast? = some 10 then s.dropLast else s

/-- The notebook after a room was entered: the clue tree, the table, and for a room
with a clue the clue and the flag `inseriu`. -/
structure Visita where
  raizPistas : PistaNode
  tabela : Tabela
  achada : Option (Texto × Bool)
  deriving DecidableEq, Repr

/-- The first half of the loop body of `explorarSalas`, on entering the room `nome`:
the clue of the room, if any, is inserted in the tree, and written to the table with
"Desconhecido" when the lookup finds no suspect for it. -/
def visitarSala (charComSinal : Bool) (m : Nat) (nome : Texto) (raizPistas : PistaNode)
    (tab : Tabela) : Visita :=
  match pistaDaSala nome with
  | some pista =>
    let r := inserirPistaIterativa raizPistas pista
    let tab2 :=
      match encontrarSuspeito charComSinal tab m pista with
      | some _ => tab
      | none => inserirNaHash charComSinal tab m pista desconhecido
    ⟨r.1, tab2, some (pista, r.2)⟩
  | none => ⟨raizPistas, tab, none⟩

/-- The field `esq` of a room (of `NULL`: `NULL`, never read by the program). -/
def Sala.filhoEsq : Sala → Sala
  | .nulo => .nulo
  | .no _ esq _ => esq

/-- The field `dir` of a room (of `NULL`: `NULL`, never read by the program). -/
def Sala.filhoDir : Sala → Sala
  | .nulo => .nulo
  | .no _ _ dir => dir

/-- The name of a room; `none` for `NULL`. -/
def Sala.nome? : Sala → Option Texto
  | .nulo => none
  | .no nome _ _ => some nome

/-- The dispatch on the first character `c` of the command in `explorarSalas`:
the new cursor, or `none` for the `break` of the command `s`. -/
def moverCursor (atual cursor : Sala) (c : Nat) : Option Sala :=
  if c = 101 ∨ c = 69 then
    if cursor.filhoEsq ≠ .nulo then some cursor.filhoEsq else some cursor
  else if c = 100 ∨ c = 68 then
    if cursor.filhoDir ≠ .nulo then some cursor.filhoDir else some cursor
  else if c = 114 ∨ c = 82 then some atual
  else if c = 115 ∨ c = 83 then none
  else some cursor

/-- The second half of the loop body of `explorarSalas` on the line that `fgets`
read: an empty command keeps the cursor (`continue`), otherwise its first character
is dispatched. -/
def aplicarComando (atual cursor : Sala) (linha : Texto) : Option Sala :=
  match trim_newline linha with
  | [] => some cursor
  | c :: _ => moverCursor atual cursor c

/-- State when `explorarSalas` returns: the cursor, the clue tree, the table and the
lines of the input that were not read. -/
structure Exploracao where
  cursor : Sala
  raizPistas : PistaNode
  tabela : Tabela
  resto : List Texto
  deriving DecidableEq, Repr

/-- The `while (cursor)` loop of `explorarSalas`. The input is the list of the
strings that the successive `fgets` calls return; at its end `fgets` fails. -/
def explorarLaco (charComSinal : Bool) (m : Nat) (atual : Sala) :
    List Texto → Sala → PistaNode → Tabela → Exploracao
  | entrada, .nulo, raizPistas, tab => ⟨.nulo, raizPistas, tab, entrada⟩
  | [], .no nome esq dir, raizPistas, tab =>
    ⟨.no nome esq dir, (visitarSala charComSinal m nome raizPistas tab).raizPistas,
      (visitarSala charComSinal m nome raizPistas tab).tabela, []⟩
  | linha :: resto, .no nome esq dir, raizPistas, tab =>
    match aplicarComando atual (.no nome esq dir) linha with
    | none =>
      ⟨.no nome esq dir, (visitarSala charComSinal m nome raizPistas tab).raizPistas,
        (visitarSala charComSinal m nome raizPistas tab).tabela, resto⟩
    | some cursor2 =>
      explorarLaco charComSinal m atual resto cursor2
        (visitarSala charComSinal m nome raizPistas tab).raizPistas
        (visitarSala charComSinal m nome raizPistas tab).tabela

/-- Function `explorarSalas`. -/
def explorarSalas (charComSinal : Bool) (atual : Sala) (raizPistas : PistaNode)
    (tabelaHash : Tabela) (tamanhoHash : Nat) (entrada : List Texto) : Exploracao :=
  explorarLaco charComSinal tamanhoHash atual entrada atual raizPistas tabelaHash

/-- The room tree that `main` builds. -/
def mansao : Sala :=
  .no salaEntrada
    (.no salaDeEstar
      (.no salaBiblioteca (criarSala salaJardim) .nulo)
      (criarSala salaQuartoPrincipal))
    (.no salaCozinha .nulo
      (.no salaEscritorio .nulo (criarSala salaBanheiro)))

/-- The table that `main` seeds, `M = 31`. -/
def tabelaSemeada (charComSinal : Bool) : Tabela :=
  inserirTodasNaHash charComSinal (criarTabelaHash 31) 31
    [(pegadasMolhadas, jardineiro), (charutoQueimado, marido),
      (marcadorDeLivroRasgado, bibliotecaria), (pegadorDePanelasSujo, cozinheiro),
      (fioDeTecidoVermelho, marido), (batomNoLavatorio, mulherDaFesta),
      (reciboRasgado, contador), (sementesPisoteadas, jardineiro)]

/-- What `main` leaves: the clue tree after the exploration and, when an accused
name was read, the message of `verificarSuspeitoFinal`. -/
structure Desfecho where
  raizPistas : PistaNode
  mensagem : Option MensagemFinal
  deriving DecidableEq, Repr

/-- Function `main` on the input lines: exploration from "Entrada" with an empty
clue tree, then the accused name is read and trimmed; an empty name ends the
program without a verdict. -/
def main (charComSinal : Bool) (entrada : List Texto) : Desfecho :=
  let r := explorarSalas charComSinal mansao .nulo (tabelaSemeada charComSinal) 31 entrada
  let acusado :=
    match r.resto with
    | [] => []
    | linha :: _ => trim_newline linha
  match acusado with
  | [] => ⟨r.raizPistas, none⟩
  | _ => ⟨r.raizPistas, some (verificarSuspeitoFinal charComSinal r.raizPistas r.tabela 31 acusado)⟩

/-! ## The function `inserirPista` -/

/-- What a call does to the caller's `int` behind `inseriu`: it stores 0 or 1, or it
returns without a store. -/
inductive Escrita where
  | semEscrita : Escrita
  | escreve (valor : Bool) : Escrita
  deriving DecidableEq, Repr

/-- Function `inserirPista`. The flag `inseriuValido` says whether `inseriu` points
to an `int`: the recursive call passes the address of the function itself, and a
store through it has no defined behaviour (`none`). A text above the text of `raiz`
reaches `return raiz` with no store and no call. -/
def inserirPista (inseriuValido : Bool) : PistaNode → Texto → Option (PistaNode × Escrita)
  | .nulo, pista =>
    if inseriuValido then some (.no pista .nulo .nulo, .escreve true) else none
  | .no p esq dir, pista =>
    if strcmp pista p = 0 then
      if inseriuValido then some (.no p esq dir, .escreve false) else none
    else if strcmp pista p < 0 then
      match inserirPista false esq pista with
      | some r => some (.no p r.1 dir, .semEscrita)
      | none => none
    else some (.no p esq dir, .semEscrita)

/-! ## Facts about `strcmp` -/

theorem strcmp_self (a : Texto) : strcmp a a = 0 := by
  induction a with
  | nil => rfl
  | cons x s ih => simp [strcmp, ih]

theorem strcmp_eq_zero {a b : Texto} (h : strcmp a b = 0) : a = b := by
  induction a generalizing b with
  | nil => cases b with
    | nil => rfl
    | cons y t => simp [strcmp] at h
  | cons x s ih => cases b with
    | nil => simp [strcmp] at h
    | cons y t =>
      simp only [strcmp] at h
      split_ifs at h with h1 h2
      · omega
      · have hxy : x = y := by omega
        rw [hxy, ih h]

theorem strcmp_eq_zero_iff (a b : Texto) : strcmp a b = 0 ↔ a = b :=
  ⟨strcmp_eq_zero, fun h => h ▸ strcmp_self a⟩

theorem strcmp_flip (a b : Texto) : strcmp b a = - strcmp a b := by
  induction a generalizing b with
  | nil => cases b <;> simp [strcmp]
  | cons x s ih => cases b with
    | nil => simp [strcmp]
    | cons y t =>
      simp only [strcmp]
      split_ifs <;> first | omega | rfl | exact ih t

theorem strcmp_pos_iff (a b : Texto) : 0 < strcmp a b ↔ strcmp b a < 0 := by
  rw [strcmp_flip a b]; omega

theorem strcmp_trans {a b c : Texto} (h1 : strcmp a b < 0) (h2 : strcmp b c < 0) :
    strcmp a c < 0 := by
  induction a generalizing b c with
  | nil => cases c with
    | nil => cases b <;> simp [strcmp] at h1 h2
    | cons z u => simp [strcmp]
  | cons x s ih => cases b with
    | nil => simp [strcmp] at h1
    | cons y t => cases c with
      | nil => simp [strcmp] at h2
      | cons z u =>
        simp only [strcmp] at h1 h2 ⊢
        split_ifs at h1 h2 ⊢ <;> first | omega | exact ih h1 h2

theorem strcmp_irrefl (a : Texto) : ¬ strcmp a a < 0 := by
  rw [strcmp_self]; omega

/-! ## Facts about the clue index -/

/-- The walk from the root, as a recursion on the tree: the equations of
`inserirPistaIterativa` at a node. -/
theorem inserirPistaIterativa_no (x p : Texto) (e d : PistaNode) :
    inserirPistaIterativa (.no p e d) x =
      if strcmp x p = 0 then (.no p e d, false)
      else if strcmp x p < 0 then
        (.no p (inserirPistaIterativa e x).1 d, (inserirPistaIterativa e x).2)
      else (.no p e (inserirPistaIterativa d x).1, (inserirPistaIterativa d x).2) := by
  simp only [inserirPistaIterativa, inserirPistaLaco]
  split_ifs
  · rfl
  · cases e <;> rfl
  · cases d <;> rfl

theorem inserirPistaIterativa_nulo (x : Texto) :
    inserirPistaIterativa .nulo x = (.no x .nulo .nulo, true) := rfl

theorem contarPistas_eq_length (t : PistaNode) :
    contarPistas t = (mostrarPistasInOrder t).length := by
  induction t with
  | nulo => rfl
  | no p e d ihe ihd =>
    simp only [contarPistas, mostrarPistasInOrder, List.length_append, List.length_cons, ihe, ihd]
    omega

theorem mem_inserir (t : PistaNode) (x y : Texto) :
    y ∈ mostrarPistasInOrder (inserirPistaIterativa t x).1 ↔
      y = x ∨ y ∈ mostrarPistasInOrder t := by
  induction t with
  | nulo => simp [inserirPistaIterativa, mostrarPistasInOrder]
  | no p e d ihe ihd =>
    rw [inserirPistaIterativa_no]
    split_ifs with h1 h2
    · have hx : x = p := strcmp_eq_zero h1
      subst hx
      simp only [mostrarPistasInOrder, List.mem_append, List.mem_cons]
      tauto
    · simp only [mostrarPistasInOrder, List.mem_append, List.mem_cons, ihe]
      tauto
    · simp only [mostrarPistasInOrder, List.mem_append, List.mem_cons, ihd]
      tauto

theorem ehBST_inserir (t : PistaNode) (x : Texto) (h : ehBST t) :
    ehBST (inserirPistaIterativa t x).1 := by
  induction t with
  | nulo => simp [inserirPistaIterativa, ehBST, mostrarPistasInOrder]
  | no p e d ihe ihd =>
    obtain ⟨he, hd, hbe, hbd⟩ := h
    rw [inserirPistaIterativa_no]
    split_ifs with h1 h2
    · exact ⟨he, hd, hbe, hbd⟩
    · refine ⟨?_, hd, ihe hbe, hbd⟩
      intro y hy
      rcases (mem_inserir e x y).1 hy with rfl | hy
      · exact h2
      · exact he y hy
    · refine ⟨he, ?_, hbe, ihd hbd⟩
      intro y hy
      rcases (mem_inserir d x y).1 hy with rfl | hy
      · have := strcmp_flip y p
        omega
      · exact hd y hy

theorem ehBST_inserirTodas (t : PistaNode) (xs : List Texto) (h : ehBST t) :
    ehBST (inserirTodas t xs) := by
  induction xs generalizing t with
  | nil => exact h
  | cons x xs ih => exact ih _ (ehBST_inserir t x h)

theorem mem_inserirTodas (t : PistaNode) (xs : List Texto) (y : Texto) :
    y ∈ mostrarPistasInOrder (inserirTodas t xs) ↔ y ∈ xs ∨ y ∈ mostrarPistasInOrder t := by
  induction xs generalizing t with
  | nil => simp [inserirTodas]
  | cons x xs ih =>
    have := ih (inserirPistaIterativa t x).1
    simp only [inserirTodas, List.foldl_cons] at this ⊢
    rw [this, mem_inserir, List.mem_cons]
    tauto

/-- The in-order walk of a tree with the BST ordering is strictly ascending. -/
theorem ehBST_pairwise (t : PistaNode) (h : ehBST t) :
    (mostrarPistasInOrder t).Pairwise (fun a b => strcmp a b < 0) := by
  induction t with
  | nulo => simp [mostrarPistasInOrder]
  | no p e d ihe ihd =>
    obtain ⟨he, hd, hbe, hbd⟩ := h
    simp only [mostrarPistasInOrder, List.pairwise_append, List.pairwise_cons, List.mem_cons]
    refine ⟨ihe hbe, ⟨hd, ihd hbd⟩, ?_⟩
    intro a ha b hb
    rcases hb with rfl | hb
    · exact he a ha
    · exact strcmp_trans (he a ha) (hd b hb)

theorem pairwise_nodup (l : List Texto) (h : l.Pairwise (fun a b => strcmp a b < 0)) :
    l.Nodup := by
  unfold List.Nodup
  refine h.imp ?_
  intro a b hab heq
  rw [heq] at hab
  exact strcmp_irrefl b hab

theorem inserirOrdenado_append_lt (x p : Texto) (l1 l2 : List Texto) (h : strcmp x p < 0) :
    inserirOrdenado x (l1 ++ p :: l2) = inserirOrdenado x l1 ++ p :: l2 := by
  induction l1 with
  | nil => simp [inserirOrdenado, h]
  | cons y l1 ih =>
    rw [List.cons_append]
    simp only [inserirOrdenado]
    split_ifs
    · rfl
    · rw [ih]; rfl

theorem inserirOrdenado_append_ge (x : Texto) (l1 l2 : List Texto)
    (h : ∀ y ∈ l1, ¬ strcmp x y < 0) :
    inserirOrdenado x (l1 ++ l2) = l1 ++ inserirOrdenado x l2 := by
  induction l1 with
  | nil => rfl
  | cons y l1 ih =>
    have hy : ¬ strcmp x y < 0 := h y (List.mem_cons_self y l1)
    rw [List.cons_append]
    simp only [inserirOrdenado, if_neg hy]
    rw [ih (fun z hz => h z (List.mem_cons_of_mem y hz))]
    rfl

theorem inserir_novo (t : PistaNode) (x : Texto) (h : ehBST t)
    (hx : x ∉ mostrarPistasInOrder t) :
    (inserirPistaIterativa t x).2 = true ∧
    mostrarPistasInOrder (inserirPistaIterativa t x).1 =
      inserirOrdenado x (mostrarPistasInOrder t) ∧
    NovaFolha x t (inserirPistaIterativa t x).1 := by
  induction t with
  | nulo => exact ⟨rfl, rfl, NovaFolha.aqui⟩
  | no p e d ihe ihd =>
    obtain ⟨he, hd, hbe, hbd⟩ := h
    simp only [mostrarPistasInOrder, List.mem_append, List.mem_cons, not_or] at hx
    obtain ⟨hxe, hxp, hxd⟩ := hx
    have h0 : strcmp x p ≠ 0 := fun h0 => hxp (strcmp_eq_zero h0)
    rw [inserirPistaIterativa_no, if_neg h0]
    split_ifs with h2
    · obtain ⟨i1, i2, i3⟩ := ihe hbe hxe
      refine ⟨i1, ?_, NovaFolha.esquerda p e _ d i3⟩
      simp only [mostrarPistasInOrder]
      rw [i2, inserirOrdenado_append_lt x p _ _ h2]
    · obtain ⟨i1, i2, i3⟩ := ihd hbd hxd
      refine ⟨i1, ?_, NovaFolha.direita p e d _ i3⟩
      have hpx : strcmp p x < 0 := by
        have := strcmp_flip x p
        omega
      simp only [mostrarPistasInOrder]
      rw [i2, inserirOrdenado_append_ge x _ _ (fun y hy hlt =>
        strcmp_irrefl y (strcmp_trans (he y hy) (strcmp_trans hpx hlt)))]
      simp only [inserirOrdenado, if_neg h2]

theorem inserir_presente (t : PistaNode) (x : Texto) (h : ehBST t)
    (hx : x ∈ mostrarPistasInOrder t) : inserirPistaIterativa t x = (t, false) := by
  induction t with
  | nulo => simp [mostrarPistasInOrder] at hx
  | no p e d ihe ihd =>
    obtain ⟨he, hd, hbe, hbd⟩ := h
    rw [inserirPistaIterativa_no]
    split_ifs with h1 h2
    · rfl
    · simp only [mostrarPistasInOrder, List.mem_append, List.mem_cons] at hx
      rcases hx with hx | hx | hx
      · rw [ihe hbe hx]
      · exact absurd ((strcmp_eq_zero_iff x p).2 hx) h1
      · have := hd x hx
        have := strcmp_flip x p
        omega
    · simp only [mostrarPistasInOrder, List.mem_append, List.mem_cons] at hx
      rcases hx with hx | hx | hx
      · exact absurd (he x hx) h2
      · exact absurd ((strcmp_eq_zero_iff x p).2 hx) h1
      · rw [ihd hbd hx]

theorem inserir_de_novo (t : PistaNode) (x : Texto) :
    inserirPistaIterativa (inserirPistaIterativa t x).1 x =
      ((inserirPistaIterativa t x).1, false) := by
  induction t with
  | nulo =>
    rw [inserirPistaIterativa_nulo, inserirPistaIterativa_no, if_pos (strcmp_self x)]
  | no p e d ihe ihd =>
    rw [inserirPistaIterativa_no]
    split_ifs with h1 h2
    · rw [inserirPistaIterativa_no, if_pos h1]
    · simp only []
      rw [inserirPistaIterativa_no, if_neg h1, if_pos h2, ihe]
    · simp only []
      rw [inserirPistaIterativa_no, if_neg h1, if_neg h2, ihd]

/-! ## Facts about `hashString` -/

theorem passo_hash_sem_sinal (h b : Nat) :
    (((h <<< 5) % 2 ^ 64 + h) % 2 ^ 64 + paraULong (charParaInt false b)) % 2 ^ 64 =
      (h * 33 + b) % 2 ^ 64 := by
  have hb : paraULong (charParaInt false b) = b % 2 ^ 64 := by
    simp only [charParaInt, paraULong]
    simp only [Bool.false_eq_true, false_and, if_false]
    omega
  rw [hb, Nat.shiftLeft_eq]
  omega

theorem passo_hash_ascii (cs : Bool) (h b : Nat) (hb : b < 128) :
    (((h <<< 5) % 2 ^ 64 + h) % 2 ^ 64 + paraULong (charParaInt cs b)) % 2 ^ 64 =
      (h * 33 + b) % 2 ^ 64 := by
  have hb : paraULong (charParaInt cs b) = b := by
    have hn : ¬ (cs = true ∧ 128 ≤ b) := by omega
    simp only [charParaInt, paraULong, if_neg hn]
    omega
  rw [hb, Nat.shiftLeft_eq]
  omega

/-- Where plain `char` is unsigned the loop of `hashString` is the recurrence
`h = h*33 + byte` on every key. -/
theorem hashLaco_sem_sinal (s : Texto) (h : Nat) : hashLaco false s h = hashEspec s h := by
  induction s generalizing h with
  | nil => rfl
  | cons b s ih => simp only [hashLaco, hashEspec, passo_hash_sem_sinal, ih]

/-- On keys whose bytes are all below 128 the loop of `hashString` is the recurrence
`h = h*33 + byte`, whatever the signedness of `char`. -/
theorem hashLaco_ascii (cs : Bool) (s : Texto) (h : Nat) (hs : ∀ b ∈ s, b < 128) :
    hashLaco cs s h = hashEspec s h := by
  induction s generalizing h with
  | nil => rfl
  | cons b s ih =>
    simp only [hashLaco, hashEspec]
    rw [passo_hash_ascii cs h b (hs b (List.mem_cons_self b s))]
    exact ih _ (fun c hc => hs c (List.mem_cons_of_mem b hc))

theorem hashString_ascii (cs : Bool) (s : Texto) (m : Nat) (hs : ∀ b ∈ s, b < 128)
    (hm0 : 0 < m) (hm : m < 2 ^ 31) : hashString cs s m = hashEspec s 5381 % m := by
  have h1 : hashEspec s 5381 % m < m := Nat.mod_lt _ hm0
  rw [hashString, hashLaco_ascii cs s 5381 hs, Nat.mod_eq_of_lt]
  omega

theorem hashString_sem_sinal (s : Texto) (m : Nat) (hm0 : 0 < m) (hm : m < 2 ^ 31) :
    hashString false s m = hashEspec s 5381 % m := by
  have h1 : hashEspec s 5381 % m < m := Nat.mod_lt _ hm0
  rw [hashString, hashLaco_sem_sinal, Nat.mod_eq_of_lt]
  omega

theorem hashString_lt (cs : Bool) (s : Texto) (m : Nat) (hm : 0 < m) :
    hashString cs s m < m := by
  have h1 : hashLaco cs s 5381 % m < m := Nat.mod_lt _ hm
  have h2 : hashLaco cs s 5381 % m % 2 ^ 32 ≤ hashLaco cs s 5381 % m := Nat.mod_le _ _
  unfold hashString
  omega

/-! ## Facts about the suspect directory -/

theorem tabela_getD_set_self (tab : Tabela) (i : Nat) (c : List HashEntry)
    (h : i < tab.length) : (tab.set i c).getD i [] = c := by
  simp [List.getElem?_set_self h]

theorem tabela_getD_set_ne (tab : Tabela) (i j : Nat) (c : List HashEntry) (h : i ≠ j) :
    (tab.set i c).getD j [] = tab.getD j [] := by
  simp [List.getElem?_set_ne h]

theorem criarTabelaHash_getD (m i : Nat) : (criarTabelaHash m).getD i [] = [] := by
  simp only [criarTabelaHash, List.getD_eq_getElem?_getD, List.getElem?_replicate]
  split_ifs <;> rfl

theorem inserirNaHash_eq (cs : Bool) (tab : Tabela) (m : Nat) (k v : Texto) :
    inserirNaHash cs tab m k v =
      tab.set (hashString cs k m) (cadeiaNova k v (tab.getD (hashString cs k m) [])) := by
  unfold inserirNaHash cadeiaNova
  dsimp only
  cases atualizarCadeia k v (tab.getD (hashString cs k m) []) <;> rfl

theorem length_inserirNaHash (cs : Bool) (tab : Tabela) (m : Nat) (k v : Texto) :
    (inserirNaHash cs tab m k v).length = tab.length := by
  rw [inserirNaHash_eq, List.length_set]

theorem length_inserirTodasNaHash (cs : Bool) (tab : Tabela) (m : Nat)
    (ops : List (Texto × Texto)) : (inserirTodasNaHash cs tab m ops).length = tab.length := by
  induction ops generalizing tab with
  | nil => rfl
  | cons kv ops ih =>
    have := ih (inserirNaHash cs tab m kv.1 kv.2)
    simp only [inserirTodasNaHash, List.foldl_cons] at this ⊢
    rw [this, length_inserirNaHash]

theorem buscar_atualizada (k v : Texto) (c c2 : List HashEntry)
    (h : atualizarCadeia k v c = some c2) : buscarCadeia k c2 = some v := by
  induction c generalizing c2 with
  | nil => simp [atualizarCadeia] at h
  | cons e r ih =>
    simp only [atualizarCadeia] at h
    split_ifs at h with he
    · cases h
      simp [buscarCadeia, he]
    · cases hr : atualizarCadeia k v r with
      | none => simp [hr] at h
      | some r2 =>
        obtain rfl : e :: r2 = c2 := by simpa [hr] using h
        simp only [buscarCadeia, if_neg he]
        exact ih r2 hr

theorem buscar_cadeiaNova (k v : Texto) (c : List HashEntry) :
    buscarCadeia k (cadeiaNova k v c) = some v := by
  unfold cadeiaNova
  cases h : atualizarCadeia k v c with
  | none => simp [buscarCadeia, strcmp_self]
  | some c2 => exact buscar_atualizada k v c c2 h

theorem buscar_atualizada_outra (k v k2 : Texto) (hk : k2 ≠ k) (c c2 : List HashEntry)
    (h : atualizarCadeia k v c = some c2) : buscarCadeia k2 c2 = buscarCadeia k2 c := by
  induction c generalizing c2 with
  | nil => simp [atualizarCadeia] at h
  | cons e r ih =>
    simp only [atualizarCadeia] at h
    split_ifs at h with he
    · cases h
      have hek : e.chave = k := strcmp_eq_zero he
      have hne : ¬ strcmp k k2 = 0 := fun h0 => hk (strcmp_eq_zero h0).symm
      simp only [buscarCadeia, hek, if_neg hne]
    · cases hr : atualizarCadeia k v r with
      | none => simp [hr] at h
      | some r2 =>
        obtain rfl : e :: r2 = c2 := by simpa [hr] using h
        simp only [buscarCadeia, ih r2 hr]

theorem buscar_cadeiaNova_outra (k v k2 : Texto) (hk : k2 ≠ k) (c : List HashEntry) :
    buscarCadeia k2 (cadeiaNova k v c) = buscarCadeia k2 c := by
  unfold cadeiaNova
  cases h : atualizarCadeia k v c with
  | none =>
    have hne : ¬ strcmp k k2 = 0 := fun h0 => hk (strcmp_eq_zero h0).symm
    simp only [buscarCadeia, if_neg hne]
  | some c2 => exact buscar_atualizada_outra k v k2 hk c c2 h

theorem encontrar_inserida (cs : Bool) (tab : Tabela) (m : Nat) (k v : Texto)
    (hlen : tab.length = m) (hm : 0 < m) :
    encontrarSuspeito cs (inserirNaHash cs tab m k v) m k = some v := by
  have hidx : hashString cs k m < tab.length := hlen ▸ hashString_lt cs k m hm
  rw [encontrarSuspeito, inserirNaHash_eq, tabela_getD_set_self _ _ _ hidx]
  exact buscar_cadeiaNova k v _

theorem encontrar_outra (cs : Bool) (tab : Tabela) (m : Nat) (k v k2 : Texto)
    (hk : k2 ≠ k) (hlen : tab.length = m) (hm : 0 < m) :
    encontrarSuspeito cs (inserirNaHash cs tab m k v) m k2 = encontrarSuspeito cs tab m k2 := by
  have hidx : hashString cs k m < tab.length := hlen ▸ hashString_lt cs k m hm
  rw [encontrarSuspeito, encontrarSuspeito, inserirNaHash_eq]
  by_cases hh : hashString cs k m = hashString cs k2 m
  · rw [← hh, tabela_getD_set_self _ _ _ hidx]
    exact buscar_cadeiaNova_outra k v k2 hk _
  · rw [tabela_getD_set_ne _ _ _ _ hh]

theorem atualizar_chaves (k v : Texto) (c c2 : List HashEntry)
    (h : atualizarCadeia k v c = some c2) :
    c2.map HashEntry.chave = c.map HashEntry.chave ∧ k ∈ c.map HashEntry.chave := by
  induction c generalizing c2 with
  | nil => simp [atualizarCadeia] at h
  | cons e r ih =>
    simp only [atualizarCadeia] at h
    split_ifs at h with he
    · cases h
      have hek : e.chave = k := strcmp_eq_zero he
      simp [hek]
    · cases hr : atualizarCadeia k v r with
      | none => simp [hr] at h
      | some r2 =>
        obtain rfl : e :: r2 = c2 := by simpa [hr] using h
        obtain ⟨i1, i2⟩ := ih r2 hr
        simp only [List.map_cons, i1, List.mem_cons]
        exact ⟨trivial, Or.inr i2⟩

theorem atualizar_none (k v : Texto) (c : List HashEntry)
    (h : atualizarCadeia k v c = none) : k ∉ c.map HashEntry.chave := by
  induction c with
  | nil => simp
  | cons e r ih =>
    simp only [atualizarCadeia] at h
    split_ifs at h with he
    have hr : atualizarCadeia k v r = none := by simpa using h
    simp only [List.map_cons, List.mem_cons, not_or]
    exact ⟨fun hk => he ((strcmp_eq_zero_iff _ _).2 hk.symm), ih hr⟩

theorem chave_em_cadeiaNova (k v : Texto) (c : List HashEntry) :
    k ∈ (cadeiaNova k v c).map HashEntry.chave := by
  unfold cadeiaNova
  cases h : atualizarCadeia k v c with
  | none => simp
  | some c2 =>
    obtain ⟨i1, i2⟩ := atualizar_chaves k v c c2 h
    simpa [i1] using i2

theorem cadeiaOk_nova (cs : Bool) (m : Nat) (k v : Texto) (c : List HashEntry)
    (h : cadeiaOk cs m (hashString cs k m) c) :
    cadeiaOk cs m (hashString cs k m) (cadeiaNova k v c) := by
  obtain ⟨hn, hp⟩ := h
  have hp2 : ∀ k2 ∈ c.map HashEntry.chave, hashString cs k2 m = hashString cs k m := by
    intro k2 hk2
    obtain ⟨e, he, rfl⟩ := List.mem_map.1 hk2
    exact hp e he
  unfold cadeiaNova
  cases h : atualizarCadeia k v c with
  | none =>
    refine ⟨?_, ?_⟩
    · simp only [List.map_cons, List.nodup_cons]
      exact ⟨atualizar_none k v c h, hn⟩
    · intro e he
      rcases List.mem_cons.1 he with rfl | he
      · rfl
      · exact hp e he
  | some c2 =>
    obtain ⟨i1, _⟩ := atualizar_chaves k v c c2 h
    refine ⟨by simpa [i1] using hn, ?_⟩
    intro e he
    exact hp2 e.chave (i1 ▸ List.mem_map_of_mem HashEntry.chave he)

theorem tabelaOk_criar (cs : Bool) (m : Nat) : tabelaOk cs m (criarTabelaHash m) := by
  refine ⟨by simp [criarTabelaHash], ?_⟩
  intro i
  rw [criarTabelaHash_getD]
  exact ⟨List.nodup_nil, fun e he => absurd he (List.not_mem_nil e)⟩

theorem tabelaOk_inserir (cs : Bool) (m : Nat) (tab : Tabela) (k v : Texto) (hm : 0 < m)
    (h : tabelaOk cs m tab) : tabelaOk cs m (inserirNaHash cs tab m k v) := by
  obtain ⟨hlen, hc⟩ := h
  have hidx : hashString cs k m < tab.length := hlen ▸ hashString_lt cs k m hm
  refine ⟨by rw [length_inserirNaHash, hlen], ?_⟩
  intro i
  rw [inserirNaHash_eq]
  by_cases hi : hashString cs k m = i
  · subst hi
    rw [tabela_getD_set_self _ _ _ hidx]
    exact cadeiaOk_nova cs m k v _ (hc _)
  · rw [tabela_getD_set_ne _ _ _ _ hi]
    exact hc i

theorem tabelaOk_todas (cs : Bool) (m : Nat) (tab : Tabela) (ops : List (Texto × Texto))
    (hm : 0 < m) (h : tabelaOk cs m tab) : tabelaOk cs m (inserirTodasNaHash cs tab m ops) := by
  induction ops generalizing tab with
  | nil => exact h
  | cons kv ops ih => exact ih _ (tabelaOk_inserir cs m tab kv.1 kv.2 hm h)

theorem filtro_flatten_unico (p : HashEntry → Bool) (tab : Tabela) (idx : Nat)
    (h : ∀ i, i ≠ idx → ∀ e ∈ tab.getD i [], p e = false) :
    (tab.flatten.filter p).length = ((tab.getD idx []).filter p).length := by
  induction tab generalizing idx with
  | nil => simp
  | cons c r ih =>
    have hr : ∀ j, (∀ i, i ≠ j → ∀ e ∈ r.getD i [], p e = false) →
        (r.flatten.filter p).length = ((r.getD j []).filter p).length := fun j hj => ih j hj
    rw [List.flatten_cons, List.filter_append, List.length_append]
    cases idx with
    | zero =>
      have h0 := hr r.length (fun i _ e he => h (i + 1) (by omega) e (by simpa using he))
      have hnil : r.getD r.length [] = [] := by simp
      rw [hnil] at h0
      rw [h0]
      simp
    | succ j =>
      have hc : c.filter p = [] := by
        rw [List.filter_eq_nil_iff]
        intro e he
        simpa using h 0 (by omega) e (by simpa using he)
      have h1 := hr j (fun i hi e he => h (i + 1) (by omega) e (by simpa using he))
      rw [hc, h1]
      simp

theorem filtro_chave_nodup (k : Texto) (c : List HashEntry)
    (h : (c.map HashEntry.chave).Nodup) :
    (c.filter (fun e => decide (e.chave = k))).length =
      if k ∈ c.map HashEntry.chave then 1 else 0 := by
  induction c with
  | nil => simp
  | cons e r ih =>
    simp only [List.map_cons, List.nodup_cons] at h
    obtain ⟨hne, hn⟩ := h
    by_cases hek : e.chave = k
    · subst hek
      simp [List.filter_cons, ih hn, hne]
    · have hke : ¬ k = e.chave := fun h => hek h.symm
      simp [List.filter_cons, hek, hke, ih hn]

theorem entradas_tabelaOk (cs : Bool) (m : Nat) (tab : Tabela) (k : Texto)
    (h : tabelaOk cs m tab) :
    entradasComChave tab k =
      if k ∈ (tab.getD (hashString cs k m) []).map HashEntry.chave then 1 else 0 := by
  obtain ⟨_, hc⟩ := h
  unfold entradasComChave
  rw [filtro_flatten_unico _ tab (hashString cs k m), filtro_chave_nodup k _ (hc _).1]
  intro i hi e he
  have := (hc i).2 e he
  simp only [decide_eq_false_iff_not]
  intro hek
  exact hi (by rw [← this, hek])

theorem encontrar_criar (cs : Bool) (m : Nat) (k : Texto) :
    encontrarSuspeito cs (criarTabelaHash m) m k = none := by
  rw [encontrarSuspeito, criarTabelaHash_getD]
  rfl

theorem encontrar_todas_fora (cs : Bool) (m : Nat) (tab : Tabela)
    (ops : List (Texto × Texto)) (k : Texto) (hlen : tab.length = m) (hm : 0 < m)
    (hk : k ∉ ops.map Prod.fst) :
    encontrarSuspeito cs (inserirTodasNaHash cs tab m ops) m k = encontrarSuspeito cs tab m k := by
  induction ops generalizing tab with
  | nil => rfl
  | cons kv ops ih =>
    simp only [List.map_cons, List.mem_cons, not_or] at hk
    have := ih (inserirNaHash cs tab m kv.1 kv.2) (by rw [length_inserirNaHash, hlen]) hk.2
    simp only [inserirTodasNaHash, List.foldl_cons] at this ⊢
    rw [this, encontrar_outra cs tab m kv.1 kv.2 k hk.1 hlen hm]

theorem encontrar_todas_dentro (cs : Bool) (m : Nat) (tab : Tabela)
    (ops : List (Texto × Texto)) (k : Texto) (hlen : tab.length = m) (hm : 0 < m)
    (hk : k ∈ ops.map Prod.fst) :
    (encontrarSuspeito cs (inserirTodasNaHash cs tab m ops) m k).isSome = true := by
  induction ops generalizing tab with
  | nil => simp at hk
  | cons kv ops ih =>
    have hlen2 : (inserirNaHash cs tab m kv.1 kv.2).length = m := by
      rw [length_inserirNaHash, hlen]
    by_cases hin : k ∈ ops.map Prod.fst
    · exact ih (inserirNaHash cs tab m kv.1 kv.2) hlen2 hin
    · have hkk : k = kv.1 := by
        simp only [List.map_cons, List.mem_cons] at hk
        tauto
      have := encontrar_todas_fora cs m (inserirNaHash cs tab m kv.1 kv.2) ops k hlen2 hm hin
      simp only [inserirTodasNaHash, List.foldl_cons] at this ⊢
      rw [this, hkk, encontrar_inserida cs tab m kv.1 kv.2 hlen hm]
      rfl

/-! ## Facts about the verdict count -/

theorem passo_contagem (cs : Bool) (tab : Tabela) (m : Nat) (acusado p : Texto) (c1 : Nat) :
    (match encontrarSuspeito cs tab m p with
      | some sus =>
        if strcmp (minusculo (copiarParaTmp sus)) (minusculo (copiarParaTmp acusado)) = 0
        then c1 + 1 else c1
      | none => c1) = c1 + (if apontaTruncado cs tab m acusado p = true then 1 else 0) := by
  unfold apontaTruncado
  cases encontrarSuspeito cs tab m p with
  | none => simp
  | some sus =>
    simp only [strcmp_eq_zero_iff, decide_eq_true_eq]
    split_ifs <;> rfl

theorem contar_acumulado (cs : Bool) (t : PistaNode) (tab : Tabela) (m : Nat)
    (acusado : Texto) (c : Nat) :
    contarPistasPorSuspeito cs t tab m acusado c = c + contagemTruncada cs t tab m acusado := by
  induction t generalizing c with
  | nulo => simp [contarPistasPorSuspeito, contagemTruncada, mostrarPistasInOrder]
  | no p e d ihe ihd =>
    have hl : contagemTruncada cs (.no p e d) tab m acusado =
        contagemTruncada cs e tab m acusado +
          (if apontaTruncado cs tab m acusado p = true then 1 else 0) +
          contagemTruncada cs d tab m acusado := by
      simp only [contagemTruncada, mostrarPistasInOrder, List.filter_append, List.filter_cons,
        List.length_append]
      split_ifs <;> (simp; try omega)
    rw [hl]
    simp only [contarPistasPorSuspeito]
    rw [ihd, passo_contagem, ihe]
    omega

theorem inOrder_estritamente_crescente_aux (xs : List Texto) :
    (mostrarPistasInOrder (inserirTodas .nulo xs)).Nodup :=
  pairwise_nodup _ (ehBST_pairwise _ (ehBST_inserirTodas .nulo xs trivial))

/-! ## The claims -/

/-- C1: for every finite sequence of texts inserted one after another with
`inserirPistaIterativa` into the empty tree, the in-order walk of the resulting tree
is strictly ascending for `strcmp`, and so has no text twice. -/
theorem inOrder_estritamente_crescente (xs : List Texto) :
    (mostrarPistasInOrder (inserirTodas .nulo xs)).Pairwise (fun a b => strcmp a b < 0) ∧
    (mostrarPistasInOrder (inserirTodas .nulo xs)).Nodup := by
  have h := ehBST_pairwise _ (ehBST_inserirTodas .nulo xs trivial)
  exact ⟨h, pairwise_nodup _ h⟩

/-- C2: on a tree with the BST ordering and a text `x` that is not stored in it,
`inserirPistaIterativa` reports `inseriu = 1`; the in-order listing of the result is
the old listing with `x` inserted at its sorted position, it is strictly ascending,
every earlier text is kept, and the result is the old tree with one new leaf `x`
(one node more). -/
theorem inserir_texto_novo (t : PistaNode) (x : Texto) (h : ehBST t)
    (hx : x ∉ mostrarPistasInOrder t) :
    (inserirPistaIterativa t x).2 = true ∧
    mostrarPistasInOrder (inserirPistaIterativa t x).1 =
      inserirOrdenado x (mostrarPistasInOrder t) ∧
    (mostrarPistasInOrder (inserirPistaIterativa t x).1).Pairwise
      (fun a b => strcmp a b < 0) ∧
    (∀ y ∈ mostrarPistasInOrder t, y ∈ mostrarPistasInOrder (inserirPistaIterativa t x).1) ∧
    NovaFolha x t (inserirPistaIterativa t x).1 ∧
    contarPistas (inserirPistaIterativa t x).1 = contarPistas t + 1 := by
  obtain ⟨h1, h2, h3⟩ := inserir_novo t x h hx
  refine ⟨h1, h2, ehBST_pairwise _ (ehBST_inserir t x h), ?_, h3, ?_⟩
  · intro y hy
    exact (mem_inserir t x y).2 (Or.inr hy)
  · have hlen : ∀ l : List Texto, (inserirOrdenado x l).length = l.length + 1 := by
      intro l
      induction l with
      | nil => rfl
      | cons y l ih =>
        simp only [inserirOrdenado]
        split_ifs
        · rfl
        · simp [ih]
    rw [contarPistas_eq_length, contarPistas_eq_length, h2, hlen]

/-- Witness of C2: inserting "a" into the one-node tree holding "b". -/
theorem inserir_texto_novo_witness :
    ehBST (.no [98] .nulo .nulo) ∧ [97] ∉ mostrarPistasInOrder (.no [98] .nulo .nulo) ∧
    (inserirPistaIterativa (.no [98] .nulo .nulo) [97]).2 = true ∧
    mostrarPistasInOrder (inserirPistaIterativa (.no [98] .nulo .nulo) [97]).1 =
      [[97], [98]] :=
  have hb : ehBST (.no [98] .nulo .nulo) := by simp [ehBST, mostrarPistasInOrder]
  have hn : [97] ∉ mostrarPistasInOrder (.no [98] .nulo .nulo) := by decide
  have h := inserir_texto_novo (.no [98] .nulo .nulo) [97] hb hn
  ⟨hb, hn, h.1, by rw [h.2.1]; decide⟩

/-- C3: inserting `x` a second time is a no-op on every tree: the second call
reports `inseriu = 0`, returns the very tree it was given, and `contarPistas` is
unchanged; and on a tree with the BST ordering that already holds `x` the insert
returns the tree unchanged with `inseriu = 0`. -/
theorem inserir_duas_vezes (t : PistaNode) (x : Texto) :
    (inserirPistaIterativa (inserirPistaIterativa t x).1 x =
        ((inserirPistaIterativa t x).1, false) ∧
      contarPistas (inserirPistaIterativa (inserirPistaIterativa t x).1 x).1 =
        contarPistas (inserirPistaIterativa t x).1) ∧
    (ehBST t → x ∈ mostrarPistasInOrder t → inserirPistaIterativa t x = (t, false)) := by
  refine ⟨⟨inserir_de_novo t x, ?_⟩, inserir_presente t x⟩
  rw [inserir_de_novo]

/-- Witness of C3: "b" is in the tree with root "b" and left child "a". -/
theorem inserir_duas_vezes_witness :
    ehBST (.no [98] (.no [97] .nulo .nulo) .nulo) ∧
    [98] ∈ mostrarPistasInOrder (.no [98] (.no [97] .nulo .nulo) .nulo) ∧
    inserirPistaIterativa (.no [98] (.no [97] .nulo .nulo) .nulo) [98] =
      (.no [98] (.no [97] .nulo .nulo) .nulo, false) :=
  have hb : ehBST (.no [98] (.no [97] .nulo .nulo) .nulo) := by
    simp [ehBST, mostrarPistasInOrder, strcmp]
  have hn : [98] ∈ mostrarPistasInOrder (.no [98] (.no [97] .nulo .nulo) .nulo) := by decide
  ⟨hb, hn, (inserir_duas_vezes (.no [98] (.no [97] .nulo .nulo) .nulo) [98]).2 hb hn⟩

/-- C4: after inserting a finite sequence of texts into the empty tree,
`contarPistas` is the number of distinct texts of the sequence. -/
theorem contarPistas_distintas (xs : List Texto) :
    contarPistas (inserirTodas .nulo xs) = xs.toFinset.card := by
  have hn := (inOrder_estritamente_crescente_aux xs)
  rw [contarPistas_eq_length, ← List.toFinset_card_of_nodup hn]
  congr 1
  ext y
  simp [mem_inserirTodas, mostrarPistasInOrder]

/-- C5: on a table of `m > 0` buckets, the lookup of `k` right after
`inserirNaHash(k, v)` returns `v`; in particular after `inserirNaHash(k, v1)` and
then `inserirNaHash(k, v2)` the lookup of `k` returns `v2`. -/
theorem encontrar_apos_inserir (cs : Bool) (tab : Tabela) (m : Nat) (k v v1 v2 : Texto)
    (hlen : tab.length = m) (hm : 0 < m) :
    encontrarSuspeito cs (inserirNaHash cs tab m k v) m k = some v ∧
    encontrarSuspeito cs (inserirNaHash cs (inserirNaHash cs tab m k v1) m k v2) m k =
      some v2 :=
  ⟨encontrar_inserida cs tab m k v hlen hm,
    encontrar_inserida cs _ m k v2 (by rw [length_inserirNaHash, hlen]) hm⟩

/-- Witness of C5: the key "x" written twice into the empty table of 31 buckets. -/
theorem encontrar_apos_inserir_witness :
    (criarTabelaHash 31).length = 31 ∧ 0 < 31 ∧
    encontrarSuspeito true
      (inserirNaHash true (inserirNaHash true (criarTabelaHash 31) 31 pistaX [97]) 31
        pistaX [98]) 31 pistaX = some [98] :=
  ⟨by decide, by decide,
    (encontrar_apos_inserir true (criarTabelaHash 31) 31 pistaX [97] [97] [98]
      (by decide) (by decide)).2⟩

/-- C6: every table reached from the empty table of `m > 0` buckets by calls of
`inserirNaHash` has `m` buckets, no chain holds two entries with the same key, every
entry is in the bucket that `hashString` selects for its key, and the whole table
holds at most one entry per key; after `inserirNaHash(k, v1)` and then
`inserirNaHash(k, v2)` it holds exactly one entry whose key is `k`. -/
theorem tabela_uma_entrada_por_chave (cs : Bool) (m : Nat) (hm : 0 < m)
    (ops : List (Texto × Texto)) :
    (inserirTodasNaHash cs (criarTabelaHash m) m ops).length = m ∧
    (∀ i, i < m →
      (((inserirTodasNaHash cs (criarTabelaHash m) m ops).getD i []).map
        HashEntry.chave).Nodup ∧
      ∀ e ∈ (inserirTodasNaHash cs (criarTabelaHash m) m ops).getD i [],
        hashString cs e.chave m = i) ∧
    (∀ k, entradasComChave (inserirTodasNaHash cs (criarTabelaHash m) m ops) k ≤ 1) ∧
    (∀ k v1 v2, entradasComChave
      (inserirNaHash cs
        (inserirNaHash cs (inserirTodasNaHash cs (criarTabelaHash m) m ops) m k v1) m k v2)
      k = 1) := by
  have hok := tabelaOk_todas cs m (criarTabelaHash m) ops hm (tabelaOk_criar cs m)
  refine ⟨hok.1, fun i _ => hok.2 i, ?_, ?_⟩
  · intro k
    rw [entradas_tabelaOk cs m _ k hok]
    split_ifs <;> omega
  · intro k v1 v2
    have h1 := tabelaOk_inserir cs m _ k v1 hm hok
    have h2 := tabelaOk_inserir cs m _ k v2 hm h1
    have hidx : hashString cs k m <
        (inserirNaHash cs (inserirTodasNaHash cs (criarTabelaHash m) m ops) m k v1).length := by
      rw [h1.1]
      exact hashString_lt cs k m hm
    rw [entradas_tabelaOk cs m _ k h2, inserirNaHash_eq cs _ m k v2,
      tabela_getD_set_self _ _ _ hidx, if_pos (chave_em_cadeiaNova k v2 _)]

/-- Witness of C6: the table of 31 buckets after the key "x" was written twice. -/
theorem tabela_uma_entrada_por_chave_witness :
    0 < 31 ∧
    ∀ k, entradasComChave
      (inserirTodasNaHash true (criarTabelaHash 31) 31 [(pistaX, [97]), (pistaX, [98])]) k ≤ 1 :=
  ⟨by decide,
    (tabela_uma_entrada_por_chave true 31 (by decide) [(pistaX, [97]), (pistaX, [98])]).2.2.1⟩

/-- C7: on a table built from the empty table of `m > 0` buckets by calls of
`inserirNaHash`, the lookup of a key that is the key of none of the calls returns
the "not found" result, and the lookup of a key of one of the calls returns a value;
the lookup is a total function, it has no error result. -/
theorem encontrar_ausente_ou_presente (cs : Bool) (m : Nat) (hm : 0 < m)
    (ops : List (Texto × Texto)) (k : Texto) :
    (k ∉ ops.map Prod.fst →
      encontrarSuspeito cs (inserirTodasNaHash cs (criarTabelaHash m) m ops) m k = none) ∧
    (k ∈ ops.map Prod.fst →
      (encontrarSuspeito cs (inserirTodasNaHash cs (criarTabelaHash m) m ops) m k).isSome =
        true) := by
  have hlen : (criarTabelaHash m).length = m := by simp [criarTabelaHash]
  refine ⟨fun hk => ?_, fun hk => encontrar_todas_dentro cs m _ ops k hlen hm hk⟩
  rw [encontrar_todas_fora cs m _ ops k hlen hm hk, encontrar_criar]

/-- Witness of C7: the key "x" was written, the key "a" was not. -/
theorem encontrar_ausente_ou_presente_witness :
    0 < 31 ∧ [97] ∉ [(pistaX, [98])].map Prod.fst ∧ pistaX ∈ [(pistaX, [98])].map Prod.fst ∧
    encontrarSuspeito true (inserirTodasNaHash true (criarTabelaHash 31) 31 [(pistaX, [98])])
      31 [97] = none ∧
    (encontrarSuspeito true (inserirTodasNaHash true (criarTabelaHash 31) 31 [(pistaX, [98])])
      31 pistaX).isSome = true :=
  ⟨by decide, by decide, by decide,
    (encontrar_ausente_ou_presente true 31 (by decide) [(pistaX, [98])] [97]).1 (by decide),
    (encontrar_ausente_ou_presente true 31 (by decide) [(pistaX, [98])] pistaX).2 (by decide)⟩

/-- C8: at the seeded key "batom no lavatório" (a well-formed string with the bytes
195 and 179) and `M = 31`, where plain `char` is signed, `hashString` returns 12,
while the recurrence `h = h*33 + byte_value(c)` from 5381, reduced modulo 31, is 18:
the loop adds the sign-extended `char`, not the byte value. -/
theorem hashString_batom_com_sinal :
    ehTexto batomNoLavatorio ∧ hashString true batomNoLavatorio 31 = 12 ∧
    hashEspec batomNoLavatorio 5381 % 31 = 18 :=
  ⟨by decide, by decide, by decide⟩

/-- C9: for every key and every table size `m > 0`, `hashString` returns an index
in `0..m-1`, so the bucket it selects is inside every table of `m` buckets. -/
theorem hashString_no_intervalo (cs : Bool) (s : Texto) (m : Nat) (hm : 0 < m) :
    hashString cs s m < m ∧
    ∀ tab : Tabela, tab.length = m → ∃ c, tab[hashString cs s m]? = some c := by
  refine ⟨hashString_lt cs s m hm, ?_⟩
  intro tab hlen
  have h : hashString cs s m < tab.length := hlen ▸ hashString_lt cs s m hm
  exact ⟨tab[hashString cs s m], List.getElem?_eq_getElem h⟩

/-- Witness of C9: the key "x" and 31 buckets. -/
theorem hashString_no_intervalo_witness : 0 < 31 ∧ hashString true pistaX 31 < 31 :=
  ⟨by decide, (hashString_no_intervalo true pistaX 31 (by decide)).1⟩

/-- C10, as stated, fails: the clue "x" resolves to a suspect name of 128 bytes
`a`, the accused name is 127 bytes `a`, a proper initial segment of it; the names
differ as full strings after folding (the spec count is 0), and
`contarPistasPorSuspeito` counts the clue (the count is 1). -/
theorem contagem_nome_longo_contraexemplo :
    ehTexto suspeitoLongo ∧ ehTexto acusadoLongo ∧
    contarPistasPorSuspeito true (inserirPistaIterativa .nulo pistaX).1
      (inserirNaHash true (criarTabelaHash 31) 31 pistaX suspeitoLongo) 31 acusadoLongo 0 = 1 ∧
    contagemEspec true (inserirPistaIterativa .nulo pistaX).1
      (inserirNaHash true (criarTabelaHash 31) 31 pistaX suspeitoLongo) 31 acusadoLongo = 0 :=
  ⟨by decide, by decide, by decide, by decide⟩

/-- C10, amended: the count of `contarPistasPorSuspeito` from 0 is the number of
texts of the tree whose lookup yields a name whose first 127 bytes, folded to lower
case, equal the first 127 bytes of the accused name folded to lower case; when the
accused name and every name the lookups yield have at most 127 bytes, this is the
number of texts whose name equals the accused name as a full string after folding;
when no text of the tree has a directory entry the count is 0. -/
theorem contagem_por_suspeito (cs : Bool) (t : PistaNode) (tab : Tabela) (m : Nat)
    (acusado : Texto) :
    contarPistasPorSuspeito cs t tab m acusado 0 = contagemTruncada cs t tab m acusado ∧
    (acusado.length ≤ 127 →
      (∀ p ∈ mostrarPistasInOrder t, ∀ sus, encontrarSuspeito cs tab m p = some sus →
        sus.length ≤ 127) →
      contarPistasPorSuspeito cs t tab m acusado 0 = contagemEspec cs t tab m acusado) ∧
    ((∀ p ∈ mostrarPistasInOrder t, encontrarSuspeito cs tab m p = none) →
      contarPistasPorSuspeito cs t tab m acusado 0 = 0) := by
  have h0 : contarPistasPorSuspeito cs t tab m acusado 0 = contagemTruncada cs t tab m acusado := by
    rw [contar_acumulado, Nat.zero_add]
  refine ⟨h0, ?_, ?_⟩
  · intro ha hs
    rw [h0, contagemTruncada, contagemEspec]
    congr 1
    apply List.filter_congr
    intro p hp
    unfold apontaTruncado apontaEspec
    cases hl : encontrarSuspeito cs tab m p with
    | none => rfl
    | some sus =>
      have h1 : copiarParaTmp sus = sus := List.take_of_length_le (hs p hp sus hl)
      have h2 : copiarParaTmp acusado = acusado := List.take_of_length_le ha
      simp only [h1, h2]
  · intro hn
    rw [h0, contagemTruncada, List.length_eq_zero, List.filter_eq_nil_iff]
    intro p hp
    simp [apontaTruncado, hn p hp]

/-- Witness of C10: the clue "x" resolves to "Ja" and the accused name is "jA"; with the
empty table the clue has no entry. -/
theorem contagem_por_suspeito_witness :
    [106, 65].length ≤ 127 ∧
    contarPistasPorSuspeito true (.no pistaX .nulo .nulo)
      (inserirNaHash true (criarTabelaHash 31) 31 pistaX [74, 97]) 31 [106, 65] 0 =
    contagemEspec true (.no pistaX .nulo .nulo)
      (inserirNaHash true (criarTabelaHash 31) 31 pistaX [74, 97]) 31 [106, 65] ∧
    contagemEspec true (.no pistaX .nulo .nulo)
      (inserirNaHash true (criarTabelaHash 31) 31 pistaX [74, 97]) 31 [106, 65] = 1 ∧
    contarPistasPorSuspeito true (.no pistaX .nulo .nulo) (criarTabelaHash 31) 31 [106, 65] 0 =
      0 :=
  ⟨by decide,
    (contagem_por_suspeito true (.no pistaX .nulo .nulo)
      (inserirNaHash true (criarTabelaHash 31) 31 pistaX [74, 97]) 31 [106, 65]).2.1
      (by decide) (by
        intro p hp sus hs
        have hpx : p = pistaX := by simpa [mostrarPistasInOrder] using hp
        subst hpx
        have hv : encontrarSuspeito true
            (inserirNaHash true (criarTabelaHash 31) 31 pistaX [74, 97]) 31 pistaX =
            some [74, 97] :=
          encontrar_inserida true _ 31 pistaX [74, 97] (by decide) (by decide)
        rw [hv] at hs
        cases hs
        decide),
    by decide,
    (contagem_por_suspeito true (.no pistaX .nulo .nulo) (criarTabelaHash 31) 31 [106, 65]).2.2
      (fun p _ => encontrar_criar true 31 p)⟩

/-! ## Facts about the exploration -/

theorem inseriu_sse_ausente (t : PistaNode) (x : Texto) (h : ehBST t) :
    (inserirPistaIterativa t x).2 = true ↔ x ∉ mostrarPistasInOrder t := by
  constructor
  · intro hi hx
    rw [inserir_presente t x h hx] at hi
    exact Bool.false_ne_true hi
  · intro hx
    exact (inserir_novo t x h hx).1

theorem visitarSala_com_pista (cs : Bool) (m : Nat) (nome c : Texto) (raiz : PistaNode)
    (tab : Tabela) (hp : pistaDaSala nome = some c) :
    visitarSala cs m nome raiz tab =
      ⟨(inserirPistaIterativa raiz c).1,
        match encontrarSuspeito cs tab m c with
        | some _ => tab
        | none => inserirNaHash cs tab m c desconhecido,
        some (c, (inserirPistaIterativa raiz c).2)⟩ := by
  simp only [visitarSala, hp]

theorem visitarSala_sem_pista (cs : Bool) (m : Nat) (nome : Texto) (raiz : PistaNode)
    (tab : Tabela) (hp : pistaDaSala nome = none) :
    visitarSala cs m nome raiz tab = ⟨raiz, tab, none⟩ := by
  simp only [visitarSala, hp]

/-- Entering a room keeps the BST ordering of the clue tree. -/
theorem visitarSala_ehBST (cs : Bool) (m : Nat) (nome : Texto) (raiz : PistaNode)
    (tab : Tabela) (h : ehBST raiz) : ehBST (visitarSala cs m nome raiz tab).raizPistas := by
  cases hp : pistaDaSala nome with
  | none => rw [visitarSala_sem_pista cs m nome raiz tab hp]; exact h
  | some c => rw [visitarSala_com_pista cs m nome c raiz tab hp]; exact ehBST_inserir raiz c h

/-- Entering a room keeps the size of the table and the fact that every text of the
clue tree has an entry. -/
theorem visitarSala_inv (cs : Bool) (m : Nat) (nome : Texto) (raiz : PistaNode)
    (tab : Tabela) (hlen : tab.length = m) (hm : 0 < m)
    (h : ∀ p ∈ mostrarPistasInOrder raiz, (encontrarSuspeito cs tab m p).isSome = true) :
    (visitarSala cs m nome raiz tab).tabela.length = m ∧
    ∀ p ∈ mostrarPistasInOrder (visitarSala cs m nome raiz tab).raizPistas,
      (encontrarSuspeito cs (visitarSala cs m nome raiz tab).tabela m p).isSome = true := by
  cases hp : pistaDaSala nome with
  | none => rw [visitarSala_sem_pista cs m nome raiz tab hp]; exact ⟨hlen, h⟩
  | some c =>
    rw [visitarSala_com_pista cs m nome c raiz tab hp]
    cases he : encontrarSuspeito cs tab m c with
    | some v =>
      refine ⟨hlen, ?_⟩
      intro p hp2
      rcases (mem_inserir raiz c p).1 hp2 with rfl | hp2
      · simp [he]
      · exact h p hp2
    | none =>
      refine ⟨by simp only [length_inserirNaHash, hlen], ?_⟩
      intro p hp2
      simp only []
      by_cases hpc : p = c
      · subst hpc
        rw [encontrar_inserida cs tab m p desconhecido hlen hm]
        rfl
      · rw [encontrar_outra cs tab m c desconhecido p hpc hlen hm]
        rcases (mem_inserir raiz c p).1 hp2 with hpc2 | hp2
        · exact absurd hpc2 hpc
        · exact h p hp2

theorem explorarLaco_inv (cs : Bool) (m : Nat) (atual : Sala) (entrada : List Texto)
    (cursor : Sala) (raiz : PistaNode) (tab : Tabela) (hlen : tab.length = m) (hm : 0 < m)
    (h : ∀ p ∈ mostrarPistasInOrder raiz, (encontrarSuspeito cs tab m p).isSome = true) :
    (explorarLaco cs m atual entrada cursor raiz tab).tabela.length = m ∧
    ∀ p ∈ mostrarPistasInOrder (explorarLaco cs m atual entrada cursor raiz tab).raizPistas,
      (encontrarSuspeito cs (explorarLaco cs m atual entrada cursor raiz tab).tabela m
        p).isSome = true := by
  induction entrada generalizing cursor raiz tab with
  | nil =>
    cases cursor with
    | nulo => exact ⟨hlen, h⟩
    | no nome e d => exact visitarSala_inv cs m nome raiz tab hlen hm h
  | cons linha resto ih =>
    cases cursor with
    | nulo => exact ⟨hlen, h⟩
    | no nome e d =>
      have hv := visitarSala_inv cs m nome raiz tab hlen hm h
      simp only [explorarLaco]
      cases aplicarComando atual (.no nome e d) linha with
      | none => exact hv
      | some cursor2 => exact ih cursor2 _ _ hv.1 hv.2

theorem explorarLaco_ehBST (cs : Bool) (m : Nat) (atual : Sala) (entrada : List Texto)
    (cursor : Sala) (raiz : PistaNode) (tab : Tabela) (h : ehBST raiz) :
    ehBST (explorarLaco cs m atual entrada cursor raiz tab).raizPistas := by
  induction entrada generalizing cursor raiz tab with
  | nil =>
    cases cursor with
    | nulo => exact h
    | no nome e d => exact visitarSala_ehBST cs m nome raiz tab h
  | cons linha resto ih =>
    cases cursor with
    | nulo => exact h
    | no nome e d =>
      have hv := visitarSala_ehBST cs m nome raiz tab h
      simp only [explorarLaco]
      cases aplicarComando atual (.no nome e d) linha with
      | none => exact hv
      | some cursor2 => exact ih cursor2 _ _ hv

/-- A text above the text of the root: `inserirPista` returns the tree it was given
and stores nothing behind `inseriu`. -/
theorem inserirPista_maior (v : Bool) (p x : Texto) (e d : PistaNode) (h : 0 < strcmp x p) :
    inserirPista v (.no p e d) x = some (.no p e d, .semEscrita) := by
  have h0 : ¬ strcmp x p = 0 := by omega
  have h1 : ¬ strcmp x p < 0 := by omega
  simp only [inserirPista, if_neg h0, if_neg h1]

/-- C11: the verdict of `verificarSuspeitoFinal` is Sustained exactly when the count
of `contarPistasPorSuspeito` from 0 is at least 2, and NotSustained exactly when it
is 0 or 1; on the empty clue tree the verdict is NotSustained. -/
theorem veredito_sse_duas_pistas (cs : Bool) (raiz : PistaNode) (tab : Tabela) (m : Nat)
    (acusado : Texto) :
    (veredito (verificarSuspeitoFinal cs raiz tab m acusado) = .sustained ↔
      2 ≤ contarPistasPorSuspeito cs raiz tab m acusado 0) ∧
    (veredito (verificarSuspeitoFinal cs raiz tab m acusado) = .notSustained ↔
      contarPistasPorSuspeito cs raiz tab m acusado 0 < 2) ∧
    veredito (verificarSuspeitoFinal cs .nulo tab m acusado) = .notSustained := by
  refine ⟨?_, ?_, rfl⟩
  · cases raiz with
    | nulo => simp [verificarSuspeitoFinal, veredito, contarPistasPorSuspeito]
    | no p e d =>
      simp only [verificarSuspeitoFinal]
      split_ifs with h
      · simp only [veredito, true_iff]; omega
      · simp only [veredito]
        constructor
        · intro hc; cases hc
        · intro hc; omega
  · cases raiz with
    | nulo => simp [verificarSuspeitoFinal, veredito, contarPistasPorSuspeito]
    | no p e d =>
      simp only [verificarSuspeitoFinal]
      split_ifs with h
      · simp only [veredito]
        constructor
        · intro hc; cases hc
        · intro hc; omega
      · simp only [veredito, true_iff]; omega

/-- C12: at every room, for the commands left (`e`, `E`) and right (`d`, `D`): when
the child in that direction exists the new cursor is that child, when it does not the
cursor is unchanged; the step always yields a cursor and the cursor is never `NULL`. -/
theorem mover_esquerda_direita (atual : Sala) (nome : Texto) (e d : Sala) (c : Nat) :
    ((c = 101 ∨ c = 69) → e ≠ .nulo → moverCursor atual (.no nome e d) c = some e) ∧
    ((c = 101 ∨ c = 69) → e = .nulo →
      moverCursor atual (.no nome e d) c = some (.no nome e d)) ∧
    ((c = 100 ∨ c = 68) → d ≠ .nulo → moverCursor atual (.no nome e d) c = some d) ∧
    ((c = 100 ∨ c = 68) → d = .nulo →
      moverCursor atual (.no nome e d) c = some (.no nome e d)) ∧
    ((c = 101 ∨ c = 69 ∨ c = 100 ∨ c = 68) →
      ∃ s, moverCursor atual (.no nome e d) c = some s ∧ s ≠ .nulo) := by
  have hE : ∀ h : c = 101 ∨ c = 69, moverCursor atual (.no nome e d) c =
      if e ≠ .nulo then some e else some (.no nome e d) := by
    intro h
    simp only [moverCursor, if_pos h, Sala.filhoEsq]
  have hD : ∀ h : c = 100 ∨ c = 68, moverCursor atual (.no nome e d) c =
      if d ≠ .nulo then some d else some (.no nome e d) := by
    intro h
    have hn : ¬ (c = 101 ∨ c = 69) := by omega
    simp only [moverCursor, if_neg hn, if_pos h, Sala.filhoDir]
  refine ⟨?_, ?_, ?_, ?_, ?_⟩
  · intro h he
    rw [hE h, if_pos he]
  · intro h he
    rw [hE h, if_neg (not_not.2 he)]
  · intro h hd
    rw [hD h, if_pos hd]
  · intro h hd
    rw [hD h, if_neg (not_not.2 hd)]
  · intro h
    by_cases hl : c = 101 ∨ c = 69
    · rw [hE hl]
      split_ifs with he
      · exact ⟨e, rfl, he⟩
      · exact ⟨_, rfl, Sala.noConfusion⟩
    · have hr : c = 100 ∨ c = 68 := by omega
      rw [hD hr]
      split_ifs with hd
      · exact ⟨d, rfl, hd⟩
      · exact ⟨_, rfl, Sala.noConfusion⟩

/-- Witness of C12: from "Entrada" the command `e` enters "Sala de Estar" and the
command `d` enters "Cozinha"; at "Cozinha" the command `e` and at "Jardim" the command
`d` leave the cursor in place. -/
theorem mover_esquerda_direita_witness :
    moverCursor mansao mansao 101 = some mansao.filhoEsq ∧
    moverCursor mansao mansao 100 = some mansao.filhoDir ∧
    moverCursor mansao mansao.filhoDir 101 = some mansao.filhoDir ∧
    moverCursor mansao (criarSala salaJardim) 100 = some (criarSala salaJardim) ∧
    (∃ s, moverCursor mansao (criarSala salaJardim) 100 = some s ∧ s ≠ .nulo) :=
  ⟨(mover_esquerda_direita mansao salaEntrada mansao.filhoEsq mansao.filhoDir 101).1
      (Or.inl rfl) (by decide),
    (mover_esquerda_direita mansao salaEntrada mansao.filhoEsq mansao.filhoDir 100).2.2.1
      (Or.inl rfl) (by decide),
    (mover_esquerda_direita mansao salaCozinha .nulo
      (.no salaEscritorio .nulo (criarSala salaBanheiro)) 101).2.1 (Or.inl rfl) rfl,
    (mover_esquerda_direita mansao salaJardim .nulo .nulo 100).2.2.2.1 (Or.inl rfl) rfl,
    (mover_esquerda_direita mansao salaJardim .nulo .nulo 100).2.2.2.2
      (Or.inr (Or.inr (Or.inl rfl)))⟩

/-- C13: on entering a room whose name has the clue `c` in `pistaDaSala`, with a
clue tree that has the BST ordering: afterwards the tree holds `c`, the flag `inseriu`
is 1 exactly when `c` was not in the tree before and 0 exactly when it was, and when
the table already had an entry for `c` the table is left as it was. -/
theorem visita_coleta_pista (cs : Bool) (m : Nat) (nome c : Texto) (raiz : PistaNode)
    (tab : Tabela) (hp : pistaDaSala nome = some c) (hb : ehBST raiz) :
    c ∈ mostrarPistasInOrder (visitarSala cs m nome raiz tab).raizPistas ∧
    ((visitarSala cs m nome raiz tab).achada = some (c, true) ↔
      c ∉ mostrarPistasInOrder raiz) ∧
    ((visitarSala cs m nome raiz tab).achada = some (c, false) ↔
      c ∈ mostrarPistasInOrder raiz) ∧
    ((encontrarSuspeito cs tab m c).isSome = true →
      (visitarSala cs m nome raiz tab).tabela = tab) := by
  rw [visitarSala_com_pista cs m nome c raiz tab hp]
  have hi := inseriu_sse_ausente raiz c hb
  refine ⟨(mem_inserir raiz c c).2 (Or.inl rfl), ?_, ?_, ?_⟩
  · simp only [Option.some.injEq, Prod.mk.injEq, true_and]
    exact hi
  · simp only [Option.some.injEq, Prod.mk.injEq, true_and]
    rw [← not_iff_not, Bool.not_eq_false, hi]
  · intro hs
    cases he : encontrarSuspeito cs tab m c with
    | none => rw [he] at hs; cases hs
    | some v => rfl

/-- Witness of C13: entering "Entrada" with the empty clue tree and the seeded table. -/
theorem visita_coleta_pista_witness :
    pistaDaSala salaEntrada = some pegadasMolhadas ∧ ehBST .nulo ∧
    pegadasMolhadas ∉ mostrarPistasInOrder .nulo ∧
    (visitarSala true 31 salaEntrada .nulo (tabelaSemeada true)).achada =
      some (pegadasMolhadas, true) ∧
    (visitarSala true 31 salaEntrada .nulo (tabelaSemeada true)).tabela = tabelaSemeada true :=
  have hp : pistaDaSala salaEntrada = some pegadasMolhadas := by decide
  have hn : pegadasMolhadas ∉ mostrarPistasInOrder .nulo := by decide
  have h := visita_coleta_pista true 31 salaEntrada pegadasMolhadas .nulo (tabelaSemeada true)
    hp trivial
  ⟨hp, trivial, hn, h.2.1.2 hn, h.2.2.2 (by decide)⟩

/-- C14: in the state that `explorarSalas` leaves, started with the empty clue tree,
any table of `m > 0` buckets and any room tree, on any input (so after any number of
commands): every text of the clue tree has an entry in the table, `encontrarSuspeito`
finds a suspect for it. -/
theorem pistas_coletadas_tem_entrada (cs : Bool) (m : Nat) (hm : 0 < m) (sala : Sala)
    (tab : Tabela) (hlen : tab.length = m) (entrada : List Texto) :
    ∀ p ∈ mostrarPistasInOrder (explorarSalas cs sala .nulo tab m entrada).raizPistas,
      (encontrarSuspeito cs (explorarSalas cs sala .nulo tab m entrada).tabela m p).isSome =
        true :=
  (explorarLaco_inv cs m sala entrada sala .nulo tab hlen hm
    (fun p hp => absurd hp (List.not_mem_nil p))).2

/-- Witness of C14: the house of `main`, the empty table of 31 buckets and the command
`e`; the clue of "Sala de Estar" is collected and has an entry. -/
theorem pistas_coletadas_tem_entrada_witness :
    0 < 31 ∧ (criarTabelaHash 31).length = 31 ∧
    charutoQueimado ∈ mostrarPistasInOrder
      (explorarSalas true mansao .nulo (criarTabelaHash 31) 31 [linhaE]).raizPistas ∧
    (encontrarSuspeito true
      (explorarSalas true mansao .nulo (criarTabelaHash 31) 31 [linhaE]).tabela 31
      charutoQueimado).isSome = true :=
  ⟨by decide, by decide, by decide,
    pistas_coletadas_tem_entrada true 31 (by decide) mansao (criarTabelaHash 31) (by decide)
      [linhaE] charutoQueimado (by decide)⟩

/-- C15, as stated, fails: entering "Entrada" with the empty table of 31 buckets, the
clue "pegadas molhadas" has no entry before, and afterwards its lookup is not the
name "Unknown": the name written is "Desconhecido". -/
theorem visita_sem_entrada_contraexemplo :
    pistaDaSala salaEntrada = some pegadasMolhadas ∧
    encontrarSuspeito true (criarTabelaHash 31) 31 pegadasMolhadas = none ∧
    encontrarSuspeito true (visitarSala true 31 salaEntrada .nulo (criarTabelaHash 31)).tabela
      31 pegadasMolhadas ≠ some unknownEspec ∧
    encontrarSuspeito true (visitarSala true 31 salaEntrada .nulo (criarTabelaHash 31)).tabela
      31 pegadasMolhadas = some desconhecido :=
  ⟨by decide, by decide, by decide, by decide⟩

/-- C15, amended: on entering a room whose clue `c` has no entry in a table of
`m > 0` buckets, the table becomes `inserirNaHash(c, "Desconhecido")` of the old one
and afterwards the lookup of `c` returns the name "Desconhecido". -/
theorem visita_sem_entrada (cs : Bool) (m : Nat) (nome c : Texto) (raiz : PistaNode)
    (tab : Tabela) (hlen : tab.length = m) (hm : 0 < m) (hp : pistaDaSala nome = some c)
    (he : encontrarSuspeito cs tab m c = none) :
    (visitarSala cs m nome raiz tab).tabela = inserirNaHash cs tab m c desconhecido ∧
    encontrarSuspeito cs (visitarSala cs m nome raiz tab).tabela m c = some desconhecido := by
  rw [visitarSala_com_pista cs m nome c raiz tab hp]
  simp only [he]
  exact ⟨trivial, encontrar_inserida cs tab m c desconhecido hlen hm⟩

/-- Witness of C15: entering "Cozinha" with the empty table of 31 buckets. -/
theorem visita_sem_entrada_witness :
    (criarTabelaHash 31).length = 31 ∧ 0 < 31 ∧
    pistaDaSala salaCozinha = some pegadorDePanelasSujo ∧
    encontrarSuspeito false (criarTabelaHash 31) 31 pegadorDePanelasSujo = none ∧
    encontrarSuspeito false
      (visitarSala false 31 salaCozinha .nulo (criarTabelaHash 31)).tabela 31
      pegadorDePanelasSujo = some desconhecido :=
  ⟨by decide, by decide, by decide, by decide,
    (visita_sem_entrada false 31 salaCozinha pegadorDePanelasSujo .nulo (criarTabelaHash 31)
      (by decide) (by decide) (by decide) (by decide)).2⟩

/-- C16: on entering a room whose name has no clue in `pistaDaSala`, the clue tree
and the table are left exactly as they were and no clue is reported; the visit is a
total function, it has no error result. -/
theorem visita_sala_sem_pista (cs : Bool) (m : Nat) (nome : Texto) (raiz : PistaNode)
    (tab : Tabela) (hp : pistaDaSala nome = none) :
    (visitarSala cs m nome raiz tab).raizPistas = raiz ∧
    (visitarSala cs m nome raiz tab).tabela = tab ∧
    (visitarSala cs m nome raiz tab).achada = none := by
  rw [visitarSala_sem_pista cs m nome raiz tab hp]
  exact ⟨rfl, rfl, rfl⟩

/-- Witness of C16: the room "Porao" has no clue. -/
theorem visita_sala_sem_pista_witness :
    pistaDaSala salaPorao = none ∧
    (visitarSala true 31 salaPorao (.no pistaX .nulo .nulo) (tabelaSemeada true)).raizPistas =
      .no pistaX .nulo .nulo ∧
    (visitarSala true 31 salaPorao (.no pistaX .nulo .nulo) (tabelaSemeada true)).tabela =
      tabelaSemeada true :=
  have h := visita_sala_sem_pista true 31 salaPorao (.no pistaX .nulo .nulo)
    (tabelaSemeada true) (by decide)
  ⟨by decide, h.1, h.2.1⟩

/-- C17: with the house, the clue table and the seeded table of `main` (`M = 31`),
from "Entrada" with an empty clue tree and the commands `e`, `e`, `e`: the clues
collected are exactly "charuto queimado", "marcador de livro rasgado", "pegadas
molhadas" and "sementes pisoteadas"; accusing "Jardineiro" counts 2 and the verdict
is Sustained. The run of `main` on the lines `e`, `e`, `e`, `s`, `Jardineiro` prints
the sustained message with count 2. Either signedness of `char` gives the same. -/
theorem cenario_tres_vezes_esquerda :
    (∀ cs : Bool,
      mostrarPistasInOrder
        (explorarSalas cs mansao .nulo (tabelaSemeada cs) 31
          [linhaE, linhaE, linhaE]).raizPistas =
        [charutoQueimado, marcadorDeLivroRasgado, pegadasMolhadas, sementesPisoteadas] ∧
      contarPistasPorSuspeito cs
        (explorarSalas cs mansao .nulo (tabelaSemeada cs) 31
          [linhaE, linhaE, linhaE]).raizPistas
        (explorarSalas cs mansao .nulo (tabelaSemeada cs) 31 [linhaE, linhaE, linhaE]).tabela
        31 jardineiro 0 = 2 ∧
      veredito (verificarSuspeitoFinal cs
        (explorarSalas cs mansao .nulo (tabelaSemeada cs) 31
          [linhaE, linhaE, linhaE]).raizPistas
        (explorarSalas cs mansao .nulo (tabelaSemeada cs) 31 [linhaE, linhaE, linhaE]).tabela
        31 jardineiro) = .sustained ∧
      (main cs [linhaE, linhaE, linhaE, linhaS, linhaJardineiro]).mensagem =
        some (.sustentada 2)) := by
  decide

/-- C18, as stated, fails: from "Entrada" the command `d` twice does not leave the
cursor at "Cozinha", the second move enters "Escritorio"; and the clues collected are
not just "pegadas molhadas" and "pegador de panelas sujo". -/
theorem cenario_duas_vezes_direita_contraexemplo :
    (explorarSalas true mansao .nulo (tabelaSemeada true) 31 [linhaD]).cursor =
      mansao.filhoDir ∧
    (explorarSalas true mansao .nulo (tabelaSemeada true) 31 [linhaD, linhaD]).cursor ≠
      mansao.filhoDir ∧
    mostrarPistasInOrder
      (explorarSalas true mansao .nulo (tabelaSemeada true) 31 [linhaD, linhaD]).raizPistas ≠
      [pegadasMolhadas, pegadorDePanelasSujo] ∧
    reciboRasgado ∈ mostrarPistasInOrder
      (explorarSalas true mansao .nulo (tabelaSemeada true) 31 [linhaD, linhaD]).raizPistas := by
  decide

/-- C18, amended: with the house and the clue table of `main`, from "Entrada" with an
empty clue tree and the command `d` twice, the first move enters "Cozinha", the
second move enters "Escritorio", and the clues collected are exactly "pegadas
molhadas", "pegador de panelas sujo" and "recibo rasgado". -/
theorem cenario_duas_vezes_direita :
    (∀ cs : Bool,
      (explorarSalas cs mansao .nulo (tabelaSemeada cs) 31 [linhaD]).cursor =
        mansao.filhoDir ∧
      mansao.filhoDir.nome? = some salaCozinha ∧
      (explorarSalas cs mansao .nulo (tabelaSemeada cs) 31 [linhaD, linhaD]).cursor =
        mansao.filhoDir.filhoDir ∧
      mansao.filhoDir.filhoDir.nome? = some salaEscritorio ∧
      mostrarPistasInOrder
        (explorarSalas cs mansao .nulo (tabelaSemeada cs) 31 [linhaD, linhaD]).raizPistas =
        [pegadasMolhadas, pegadorDePanelasSujo, reciboRasgado]) := by
  decide

/-- C19: with the house, the clue table and the seeded table of `main` (`M = 31`),
from "Entrada" with an empty clue tree and the command `d` twice, accusing
"Jardineiro" counts 1 and the verdict is NotSustained. The run of `main` on the lines
`d`, `d`, `s`, `Jardineiro` prints the not-sustained message with count 1. Either
signedness of `char` gives the same. -/
theorem cenario_direita_acusacao :
    (∀ cs : Bool,
      contarPistasPorSuspeito cs
        (explorarSalas cs mansao .nulo (tabelaSemeada cs) 31 [linhaD, linhaD]).raizPistas
        (explorarSalas cs mansao .nulo (tabelaSemeada cs) 31 [linhaD, linhaD]).tabela
        31 jardineiro 0 = 1 ∧
      veredito (verificarSuspeitoFinal cs
        (explorarSalas cs mansao .nulo (tabelaSemeada cs) 31 [linhaD, linhaD]).raizPistas
        (explorarSalas cs mansao .nulo (tabelaSemeada cs) 31 [linhaD, linhaD]).tabela
        31 jardineiro) = .notSustained ∧
      (main cs [linhaD, linhaD, linhaS, linhaJardineiro]).mensagem =
        some (.naoSustentada 1)) := by
  decide

/-- C20: on the one-node tree holding "b" and the text "c", which is not in the tree
and is above the root, `inserirPista` returns the tree unchanged, without "c", and
stores nothing behind `inseriu`; `inserirPistaIterativa` on the same input adds the
leaf "c" and sets `inseriu` to 1. On the text "a", below the root, the recursive call
of `inserirPista` stores through the address of the function. -/
theorem inserirPista_nao_insere_a_direita :
    [99] ∉ mostrarPistasInOrder (.no [98] .nulo .nulo) ∧ 0 < strcmp [99] [98] ∧
    inserirPista true (.no [98] .nulo .nulo) [99] =
      some (.no [98] .nulo .nulo, .semEscrita) ∧
    inserirPistaIterativa (.no [98] .nulo .nulo) [99] =
      (.no [98] .nulo (.no [99] .nulo .nulo), true) ∧
    inserirPista true (.no [98] .nulo .nulo) [97] = none := by
  decide

/-! ## Shape of the chain after `inserirNaHash` -/

/-- When the walk of `inserirNaHash` finds the key, the chain is the old one with the
value of the first entry of that key replaced. -/
theorem atualizar_forma (k v : Texto) (c c2 : List HashEntry)
    (h : atualizarCadeia k v c = some c2) :
    ∃ pre old post, c = pre ++ ⟨k, old⟩ :: post ∧ (∀ e ∈ pre, e.chave ≠ k) ∧
      c2 = pre ++ ⟨k, v⟩ :: post := by
  induction c generalizing c2 with
  | nil => simp [atualizarCadeia] at h
  | cons e r ih =>
    simp only [atualizarCadeia] at h
    split_ifs at h with he
    · cases h
      have hek : e.chave = k := strcmp_eq_zero he
      refine ⟨[], e.valor, r, ?_, fun x hx => absurd hx (List.not_mem_nil x), ?_⟩
      · rw [← hek]; rfl
      · rw [← hek]; rfl
    · cases hr : atualizarCadeia k v r with
      | none => simp [hr] at h
      | some r2 =>
        obtain rfl : e :: r2 = c2 := by simpa [hr] using h
        obtain ⟨pre, old, post, h1, h2, h3⟩ := ih r2 hr
        refine ⟨e :: pre, old, post, by rw [h1]; rfl, ?_, by rw [h3]; rfl⟩
        intro x hx
        rcases List.mem_cons.1 hx with rfl | hx
        · exact fun hk => he ((strcmp_eq_zero_iff _ _).2 hk)
        · exact h2 x hx

theorem atualizar_some_de_chave (k v : Texto) (c : List HashEntry)
    (h : k ∈ c.map HashEntry.chave) : ∃ c2, atualizarCadeia k v c = some c2 := by
  cases hr : atualizarCadeia k v c with
  | none => exact absurd h (atualizar_none k v c hr)
  | some c2 => exact ⟨c2, rfl⟩

theorem atualizar_none_de_ausente (k v : Texto) (c : List HashEntry)
    (h : k ∉ c.map HashEntry.chave) : atualizarCadeia k v c = none := by
  cases hr : atualizarCadeia k v c with
  | none => rfl
  | some c2 => exact absurd (atualizar_chaves k v c c2 hr).2 h

/-- C21: on a table of `m > 0` buckets `inserirNaHash(k, v)` keeps the number of
buckets and every bucket other than the one `hashString` selects for `k`. When the
chain of that bucket has an entry with key `k`, the new chain is the old one, same
length and order, with the value of the first such entry replaced by `v`; when it has
none, the new chain is the entry `(k, v)` followed by the old chain. -/
theorem inserirNaHash_muda_um_balde (cs : Bool) (tab : Tabela) (m : Nat) (k v : Texto)
    (hlen : tab.length = m) (hm : 0 < m) :
    (inserirNaHash cs tab m k v).length = tab.length ∧
    (∀ i, i ≠ hashString cs k m →
      (inserirNaHash cs tab m k v).getD i [] = tab.getD i []) ∧
    (k ∈ (tab.getD (hashString cs k m) []).map HashEntry.chave →
      ((inserirNaHash cs tab m k v).getD (hashString cs k m) []).length =
        (tab.getD (hashString cs k m) []).length ∧
      ∃ pre old post,
        tab.getD (hashString cs k m) [] = pre ++ ⟨k, old⟩ :: post ∧
        (∀ e ∈ pre, e.chave ≠ k) ∧
        (inserirNaHash cs tab m k v).getD (hashString cs k m) [] =
          pre ++ ⟨k, v⟩ :: post) ∧
    (k ∉ (tab.getD (hashString cs k m) []).map HashEntry.chave →
      (inserirNaHash cs tab m k v).getD (hashString cs k m) [] =
        ⟨k, v⟩ :: tab.getD (hashString cs k m) []) := by
  have hidx : hashString cs k m < tab.length := hlen ▸ hashString_lt cs k m hm
  refine ⟨length_inserirNaHash cs tab m k v, ?_, ?_, ?_⟩
  · intro i hi
    rw [inserirNaHash_eq, tabela_getD_set_ne _ _ _ _ (Ne.symm hi)]
  · intro hk
    obtain ⟨c2, hc2⟩ := atualizar_some_de_chave k v _ hk
    obtain ⟨pre, old, post, h1, h2, h3⟩ := atualizar_forma k v _ c2 hc2
    have hnew : (inserirNaHash cs tab m k v).getD (hashString cs k m) [] = c2 := by
      rw [inserirNaHash_eq, tabela_getD_set_self _ _ _ hidx, cadeiaNova, hc2]
    refine ⟨?_, pre, old, post, h1, h2, by rw [hnew, h3]⟩
    rw [hnew, h3, h1]
    simp
  · intro hk
    rw [inserirNaHash_eq, tabela_getD_set_self _ _ _ hidx, cadeiaNova,
      atualizar_none_de_ausente k v _ hk]

/-- Witness of C21: in the table of one bucket that holds "a" then "x", writing "x"
again replaces its value in place, and writing the new key "b" puts it at the head. -/
theorem inserirNaHash_muda_um_balde_witness :
    ([[⟨[97], [49]⟩, ⟨pistaX, [50]⟩]] : Tabela).length = 1 ∧ 0 < 1 ∧
    (inserirNaHash true [[⟨[97], [49]⟩, ⟨pistaX, [50]⟩]] 1 pistaX [51]).getD
      (hashString true pistaX 1) [] = [⟨[97], [49]⟩, ⟨pistaX, [51]⟩] ∧
    (inserirNaHash true [[⟨[97], [49]⟩, ⟨pistaX, [50]⟩]] 1 [98] [51]).getD
      (hashString true [98] 1) [] = [⟨[98], [51]⟩, ⟨[97], [49]⟩, ⟨pistaX, [50]⟩] ∧
    ((inserirNaHash true [[⟨[97], [49]⟩, ⟨pistaX, [50]⟩]] 1 pistaX [51]).getD
      (hashString true pistaX 1) []).length = 2 :=
  ⟨by decide, by decide, by decide,
    (inserirNaHash_muda_um_balde true [[⟨[97], [49]⟩, ⟨pistaX, [50]⟩]] 1 [98] [51]
      (by decide) (by decide)).2.2.2 (by decide),
    ((inserirNaHash_muda_um_balde true [[⟨[97], [49]⟩, ⟨pistaX, [50]⟩]] 1 pistaX [51]
      (by decide) (by decide)).2.2.1 (by decide)).1⟩

/-- C22: on a table of `m > 0` buckets and for two distinct keys `k` and `k2`,
`inserirNaHash(k, v)` does not change the result of `encontrarSuspeito(k2)`: a found
value stays, a key that was not found stays not found, whether or not the two keys
are in the same bucket. -/
theorem inserirNaHash_preserva_outra_chave (cs : Bool) (tab : Tabela) (m : Nat)
    (k k2 v : Texto) (hlen : tab.length = m) (hm : 0 < m) (hk : k2 ≠ k) :
    encontrarSuspeito cs (inserirNaHash cs tab m k v) m k2 = encontrarSuspeito cs tab m k2 ∧
    (∀ w, encontrarSuspeito cs tab m k2 = some w →
      encontrarSuspeito cs (inserirNaHash cs tab m k v) m k2 = some w) ∧
    (encontrarSuspeito cs tab m k2 = none →
      encontrarSuspeito cs (inserirNaHash cs tab m k v) m k2 = none) := by
  have h := encontrar_outra cs tab m k v k2 hk hlen hm
  exact ⟨h, fun w hw => by rw [h, hw], fun hn => by rw [h, hn]⟩

/-- Witness of C22: one bucket, so every key is in the same chain; writing "x" keeps
the value of "a" and leaves "b" not found. -/
theorem inserirNaHash_preserva_outra_chave_witness :
    ([[⟨[97], [49]⟩]] : Tabela).length = 1 ∧ 0 < 1 ∧ ([97] : Texto) ≠ pistaX ∧
    ([98] : Texto) ≠ pistaX ∧
    hashString true [97] 1 = hashString true pistaX 1 ∧
    encontrarSuspeito true (inserirNaHash true [[⟨[97], [49]⟩]] 1 pistaX [51]) 1 [97] =
      some [49] ∧
    encontrarSuspeito true (inserirNaHash true [[⟨[97], [49]⟩]] 1 pistaX [51]) 1 [98] =
      none :=
  ⟨by decide, by decide, by decide, by decide, by decide,
    (inserirNaHash_preserva_outra_chave true [[⟨[97], [49]⟩]] 1 pistaX [97] [51]
      (by decide) (by decide) (by decide)).2.1 [49] (by decide),
    (inserirNaHash_preserva_outra_chave true [[⟨[97], [49]⟩]] 1 pistaX [98] [51]
      (by decide) (by decide) (by decide)).2.2 (by decide)⟩

end DetectiveQuest
